import Mathlib

set_option maxRecDepth 40000

/-!
# Verification of the terraform-estimation pricing pipeline

Shallow embedding of the Go pricing-ingestion system (packages `db` and
`db/ingestion`) together with the SQL migrations, and proofs about the
embedded definitions.

Conventions used throughout:
* `decimal.Decimal` (shopspring/decimal v1.4.0) is embedded structurally as an
  integer coefficient together with a base-10 exponent, exactly as in the Go
  library; the arithmetic used by the repository (`Add`, `Sub`, `Mul`, `Cmp`,
  `String`) is exact on this representation.
* Go `float64` values (confidence scores, coverage percentages) only ever flow
  through comparisons and exact small-integer arithmetic in the verified code
  paths; they are embedded as `ℚ`.
* `uuid.UUID` values are embedded as `Nat`, drawn from a fresh-name counter
  (`uuid.New()` = "take the next unused number").
* timestamps are embedded as `Nat`.
* SQL tables are embedded as lists of rows, and each query of the Go store is
  translated clause-by-clause from its SQL text.
-/

/-! ## The decimal model (shopspring/decimal)

`Decimal` represents `value * 10 ^ exp`, as in the Go library.  `rescale`,
`rescalePair`, `add`, `sub`, `mul`, `cmp` and the canonical string form
`toStr` are translated from shopspring/decimal v1.4.0 (the version pinned in
go.mod).  Go's `big.Int.Quo` (truncated division, only reachable in `rescale`
when the exponent grows) corresponds to `Int.tdiv`. -/

structure Decimal where
  value : Int
  exp : Int
deriving DecidableEq, Repr

namespace Decimal

/-- `decimal.Zero` is `New(0, 1)` in Go. -/
def zero : Decimal := ⟨0, 1⟩

/-- The rational value denoted by a decimal. -/
def toRat (d : Decimal) : ℚ := d.value * (10 : ℚ) ^ d.exp

/-- `Decimal.rescale` from shopspring: move to exponent `e`, multiplying the
coefficient when the exponent shrinks and truncating when it grows. -/
def rescale (d : Decimal) (e : Int) : Decimal :=
  if d.exp = e then d
  else
    let scale : Int := (10 : Int) ^ (e - d.exp).natAbs
    if e > d.exp then ⟨d.value.tdiv scale, e⟩ else ⟨d.value * scale, e⟩

/-- `RescalePair`: bring both decimals to the smaller of the two exponents. -/
def rescalePair (a b : Decimal) : Decimal × Decimal :=
  if a.exp < b.exp then (a, b.rescale a.exp)
  else if b.exp < a.exp then (a.rescale b.exp, b)
  else (a, b)

/-- `Decimal.Add`. -/
def add (a b : Decimal) : Decimal :=
  let p := rescalePair a b
  ⟨p.1.value + p.2.value, p.1.exp⟩

/-- `Decimal.Sub`. -/
def sub (a b : Decimal) : Decimal :=
  let p := rescalePair a b
  ⟨p.1.value - p.2.value, p.1.exp⟩

/-- `Decimal.Mul`. -/
def mul (a b : Decimal) : Decimal := ⟨a.value * b.value, a.exp + b.exp⟩

/-- `big.Int.Cmp`: -1, 0 or 1. -/
def cmpInt (x y : Int) : Int := if x < y then -1 else if x = y then 0 else 1

/-- `Decimal.Cmp`. -/
def cmp (a b : Decimal) : Int :=
  if a.exp = b.exp then cmpInt a.value b.value
  else
    let p := rescalePair a b
    cmpInt p.1.value p.2.value

/-- `Decimal.GreaterThan`. -/
def greaterThan (a b : Decimal) : Bool := a.cmp b = 1

/-- `Decimal.LessThanOrEqual`. -/
def lessThanOrEqual (a b : Decimal) : Bool := a.cmp b ≤ 0

/-- `Decimal.IsNegative` (`Sign() < 0`). -/
def isNegative (d : Decimal) : Bool := d.value < 0

/-- Decimal digits of a natural number, most significant first. -/
def natDigits (n : Nat) : List Char := (Nat.toDigits 10 n)

/-- Drop trailing `'0'` characters (the fractional-part trim in
`Decimal.string(trimTrailingZeros = true)`). -/
def trimZeros (l : List Char) : List Char :=
  (l.reverse.dropWhile (fun c => c = '0')).reverse

/-- `Decimal.String()`: the canonical (trailing-zero-trimmed) string form,
translated from shopspring's `string(true)`. -/
def toStr (d : Decimal) : String :=
  if 0 ≤ d.exp then
    let v := (d.rescale 0).value
    if v < 0 then "-" ++ String.mk (natDigits v.natAbs)
    else String.mk (natDigits v.natAbs)
  else
    let s := natDigits d.value.natAbs
    let dExp := (-d.exp).toNat
    let ip := if s.length > dExp then s.take (s.length - dExp) else ['0']
    let fp :=
      if s.length > dExp then s.drop (s.length - dExp)
      else List.replicate (dExp - s.length) '0' ++ s
    let fp := trimZeros fp
    let number := if fp.length > 0 then ip ++ '.' :: fp else ip
    if d.value < 0 then "-" ++ String.mk number else String.mk number

end Decimal

/-! ## SHA-256 (crypto/sha256)

`calculateHash` in the Go source feeds a byte stream into `crypto/sha256` and
hex-encodes the digest.  The hash function itself is the standard FIPS 180-4
SHA-256; it is embedded here executably over `Nat` machine words reduced
modulo `2 ^ 32`. -/

namespace Sha256

/-- `2 ^ 32`. -/
def M32 : Nat := 4294967296

/-- Rotate a 32-bit word right by `k`. -/
def rotr (k x : Nat) : Nat := x / 2 ^ k + x % 2 ^ k * 2 ^ (32 - k)

/-- Logical shift right. -/
def shr (k x : Nat) : Nat := x / 2 ^ k

/-- Bitwise complement of a 32-bit word (`x < 2^32`). -/
def not32 (x : Nat) : Nat := 4294967295 - x

def ch (x y z : Nat) : Nat := (x &&& y) ^^^ (not32 x &&& z)

def maj (x y z : Nat) : Nat := (x &&& y) ^^^ (x &&& z) ^^^ (y &&& z)

def bigSigma0 (x : Nat) : Nat := rotr 2 x ^^^ rotr 13 x ^^^ rotr 22 x

def bigSigma1 (x : Nat) : Nat := rotr 6 x ^^^ rotr 11 x ^^^ rotr 25 x

def smallSigma0 (x : Nat) : Nat := rotr 7 x ^^^ rotr 18 x ^^^ shr 3 x

def smallSigma1 (x : Nat) : Nat := rotr 17 x ^^^ rotr 19 x ^^^ shr 10 x

/-- The round constants K₀…K₆₃. -/
def K : List Nat :=
  [1116352408, 1899447441, 3049323471, 3921009573, 961987163,
   1508970993, 2453635748, 2870763221, 3624381080, 310598401,
   607225278, 1426881987, 1925078388, 2162078206, 2614888103,
   3248222580, 3835390401, 4022224774, 264347078, 604807628,
   770255983, 1249150122, 1555081692, 1996064986, 2554220882,
   2821834349, 2952996808, 3210313671, 3336571891, 3584528711,
   113926993, 338241895, 666307205, 773529912, 1294757372,
   1396182291, 1695183700, 1986661051, 2177026350, 2456956037,
   2730485921, 2820302411, 3259730800, 3345764771, 3516065817,
   3600352804, 4094571909, 275423344, 430227734, 506948616,
   659060556, 883997877, 958139571, 1322822218, 1537002063,
   1747873779, 1955562222, 2024104815, 2227730452, 2361852424,
   2428436474, 2756734187, 3204031479, 3329325298]

/-- The working state: eight 32-bit words. -/
structure H8 where
  a : Nat
  b : Nat
  c : Nat
  d : Nat
  e : Nat
  f : Nat
  g : Nat
  h : Nat
deriving DecidableEq, Repr

/-- Initial hash value H⁽⁰⁾. -/
def H0 : H8 :=
  ⟨1779033703, 3144134277, 1013904242, 2773480762,
   1359893119, 2600822924, 528734635, 1541459225⟩

/-- One word of the extended message schedule, computed from the last 16
entries of the schedule so far. -/
def nextW (w : List Nat) : Nat :=
  let n := w.length
  (smallSigma1 (w.getD (n - 2) 0) + w.getD (n - 7) 0 +
   smallSigma0 (w.getD (n - 15) 0) + w.getD (n - 16) 0) % M32

/-- Extend a 16-word block to the 64-word schedule W. -/
def buildW (blk : List Nat) : List Nat :=
  (List.range 48).foldl (fun w _ => w ++ [nextW w]) blk

/-- One compression round. -/
def round (s : H8) (kw : Nat × Nat) : H8 :=
  let t1 := (s.h + bigSigma1 s.e + ch s.e s.f s.g + kw.1 + kw.2) % M32
  let t2 := (bigSigma0 s.a + maj s.a s.b s.c) % M32
  ⟨(t1 + t2) % M32, s.a, s.b, s.c, (s.d + t1) % M32, s.e, s.f, s.g⟩

/-- Compress one 512-bit block into the running hash. -/
def compress (h : H8) (blk : List Nat) : H8 :=
  let s := (K.zip (buildW blk)).foldl round h
  ⟨(h.a + s.a) % M32, (h.b + s.b) % M32, (h.c + s.c) % M32, (h.d + s.d) % M32,
   (h.e + s.e) % M32, (h.f + s.f) % M32, (h.g + s.g) % M32, (h.h + s.h) % M32⟩

/-- Big-endian bytes of the 64-bit message length. -/
def lenBytes (bitLen : Nat) : List Nat :=
  (List.range 8).map fun i => bitLen / 256 ^ (7 - i) % 256

/-- FIPS 180-4 padding: `0x80`, zeros to 56 mod 64, then the bit length. -/
def pad (msg : List Nat) : List Nat :=
  let l := msg.length
  msg ++ 128 :: List.replicate ((119 - l % 64) % 64) 0 ++ lenBytes (8 * l)

/-- Pack big-endian bytes into 32-bit words (the padded length is a multiple
of four). -/
def toWords : List Nat → List Nat
  | b0 :: b1 :: b2 :: b3 :: rest =>
    (((b0 * 256 + b1) * 256 + b2) * 256 + b3) :: toWords rest
  | _ => []

/-- Split a word list into 16-word blocks (fuel-indexed for termination). -/
def chunk16 : Nat → List Nat → List (List Nat)
  | 0, _ => []
  | _, [] => []
  | fuel + 1, l => l.take 16 :: chunk16 fuel (l.drop 16)

/-- The SHA-256 digest of a byte list, as eight 32-bit words. -/
def digest (msg : List Nat) : H8 :=
  let ws := toWords (pad msg)
  (chunk16 ws.length ws).foldl compress H0

/-- Lowercase hex digit. -/
def hexDigit (n : Nat) : Char :=
  "0123456789abcdef".toList.getD n '0'

/-- Eight lowercase hex characters of a 32-bit word. -/
def hexWord (x : Nat) : List Char :=
  (List.range 8).map fun i => hexDigit (x / 16 ^ (7 - i) % 16)

/-- `hex.EncodeToString(hasher.Sum(nil))`: the lowercase hex digest. -/
def hex (msg : List Nat) : String :=
  let d := digest msg
  String.mk (hexWord d.a ++ hexWord d.b ++ hexWord d.c ++ hexWord d.d ++
             hexWord d.e ++ hexWord d.f ++ hexWord d.g ++ hexWord d.h)

end Sha256

/-- The UTF-8 bytes of a string.  Every string hashed by the repository
(cloud tags, service codes, regions, attribute keys/values, units, canonical
decimal strings) is ASCII, where the code points are the bytes. -/
def strBytes (s : String) : List Nat := s.toList.map Char.toNat

/-! ## Canonical model (db/types.go, ingestion pipeline types)

Go `map[string]string` attribute maps are embedded as association lists with
pairwise-distinct keys; every place the source iterates a map it immediately
sorts (hashing) or treats the entries as a set (JSONB), so the list order
never matters to the embedded semantics. -/

/-- `db.RateKey`. -/
structure RateKey where
  id : Nat
  cloud : String
  service : String
  productFamily : String
  region : String
  attributes : List (String × String)
deriving DecidableEq, Repr

/-- `ingestion.NormalizedRate`. -/
structure NormalizedRate where
  rateKey : RateKey
  unit : String
  price : Decimal
  currency : String
  confidence : ℚ
  tierMin : Option Decimal
  tierMax : Option Decimal
deriving DecidableEq, Repr

/-- `ingestion.RawPrice`. -/
structure RawPrice where
  sku : String
  serviceCode : String
  productFamily : String
  region : String
  unit : String
  pricePerUnit : String
  currency : String
  attributes : List (String × String)
  tierStart : Option ℚ
  tierEnd : Option ℚ
  effectiveDate : Option Nat
deriving DecidableEq, Repr

/-- Lexicographic (byte-order) comparison of character lists; on the ASCII
strings the repository hashes and sorts, this is exactly Go's string
order. -/
def charListLe : List Char → List Char → Bool
  | a :: as, b :: bs =>
    if a.toNat < b.toNat then true
    else if b.toNat < a.toNat then false
    else charListLe as bs
  | [], _ => true
  | _, _ => false

/-- Go string `<=`. -/
def strLe (a b : String) : Bool := charListLe a.toList b.toList

/-- Insert into a ≤-sorted list of strings (`sort.Strings`). -/
def insertStr (a : String) : List String → List String
  | [] => [a]
  | b :: t => if strLe a b then a :: b :: t else b :: insertStr a t

/-- `sort.Strings`: sort a string list lexicographically. -/
def sortStrings : List String → List String
  | [] => []
  | a :: t => insertStr a (sortStrings t)

/-- `rateKeyString` (part of `calculateHash`): `cloud|service|productFamily|
region|k1=v1,k2=v2,…` with the attribute entries sorted. -/
def rateKeyString (k : RateKey) : String :=
  let attrs := sortStrings (k.attributes.map fun kv => kv.1 ++ "=" ++ kv.2)
  k.cloud ++ "|" ++ k.service ++ "|" ++ k.productFamily ++ "|" ++ k.region ++
    "|" ++ String.intercalate "," attrs

/-- Stable insertion by `rateKeyString`: a rate moves left past entries whose
key string is strictly greater, exactly as Go's `sort.Slice` comparator
`rateKeyString(i) < rateKeyString(j)` behaves on short slices (`sort.Slice`
runs insertion sort below 12 elements, which is stable; entries whose key
strings are equal keep their input order). -/
def insertByKey (a : NormalizedRate) : List NormalizedRate → List NormalizedRate
  | [] => [a]
  | b :: t =>
    if strLe (rateKeyString a.rateKey) (rateKeyString b.rateKey) then a :: b :: t
    else b :: insertByKey a t

/-- The sort in `calculateHash`: order rates by `rateKeyString` only (the
unit and the price do not participate in the comparator). -/
def sortByKey : List NormalizedRate → List NormalizedRate
  | [] => []
  | a :: t => insertByKey a (sortByKey t)

/-- `ingestion.calculateHash`: sort the rates by their rate-key string, then
hash `rateKeyString ++ unit ++ price.String()` for each rate, in order, and
hex-encode the SHA-256 digest. -/
def calculateHash (rates : List NormalizedRate) : String :=
  let sorted := sortByKey rates
  Sha256.hex <| sorted.foldl
    (fun acc r =>
      acc ++ strBytes (rateKeyString r.rateKey) ++ strBytes r.unit ++
        strBytes r.price.toStr)
    []

/-! ## The store model (db/postgres.go over the migrated schema)

The three tables are lists of rows.  The `state` column exists at the SQL
level (migration `004_snapshot_lifecycle` adds it with `DEFAULT 'pending'`);
the Go `PricingSnapshot` struct and its INSERT never mention it, so rows
written through the Go store always carry the default. -/

/-- A row of `pricing_snapshots` (schema of `001` + the `state` column of
migration `004`). -/
structure SnapshotRow where
  id : Nat
  cloud : String
  region : String
  providerAlias : String
  source : String
  fetchedAt : Nat
  validFrom : Nat
  validTo : Option Nat
  hash : String
  version : String
  isActive : Bool
  state : String
  createdAt : Nat
deriving DecidableEq, Repr

/-- A row of `pricing_rates`. -/
structure RateRow where
  id : Nat
  snapshotId : Nat
  rateKeyId : Nat
  unit : String
  price : Decimal
  currency : String
  confidence : ℚ
  tierMin : Option Decimal
  tierMax : Option Decimal
  effectiveDate : Option Nat
deriving DecidableEq, Repr

/-- The database: `pricing_snapshots`, `pricing_rate_keys`, `pricing_rates`.
Row order models physical row order (used only where SQL leaves the order
unspecified). -/
structure DB where
  snapshots : List SnapshotRow
  rateKeys : List RateKey
  rates : List RateRow
deriving DecidableEq, Repr

/-- Insert into a list of key/value pairs sorted by key. -/
def insertPair (a : String × String) : List (String × String) → List (String × String)
  | [] => [a]
  | b :: t => if strLe a.1 b.1 then a :: b :: t else b :: insertPair a t

/-- Sort attribute entries by key: the canonical (JSONB / `json.Marshal`)
object form, under which attribute-map equality is decided. -/
def canonAttrs : List (String × String) → List (String × String)
  | [] => []
  | a :: t => insertPair a (canonAttrs t)

/-- JSONB equality of two attribute objects. -/
def attrsEq (a b : List (String × String)) : Bool := canonAttrs a = canonAttrs b

/-- JSONB containment `stored @> requested`: every requested key is present
with the requested value. -/
def attrsContains (stored req : List (String × String)) : Bool :=
  req.all fun kv => decide ((stored.find? fun s => decide (s.1 = kv.1)) = some kv)

/-- SQL `NUMERIC` equality of nullable tier bounds as used by the
`unique_rate` constraint: `NULL` compares unequal to everything (including
`NULL`), and non-null values compare by numeric value. -/
def tierEqSQL (a b : Option Decimal) : Bool :=
  match a, b with
  | some x, some y => x.cmp y = 0
  | _, _ => false

/-- `ORDER BY pr.tier_min NULLS FIRST` as a strict comparison on rows. -/
def tierMinLt (a b : Option Decimal) : Bool :=
  match a, b with
  | none, some _ => true
  | some x, some y => x.cmp y = -1
  | _, _ => false

/-- `db.ResolvedRate`. -/
structure ResolvedRate where
  price : Decimal
  currency : String
  confidence : ℚ
  tierMin : Option Decimal
  tierMax : Option Decimal
  snapshotId : Nat
  source : String
deriving DecidableEq, Repr

/-- `db.TieredRate` (`Min` defaults to the zero decimal when `tier_min` is
NULL, as in the Go row scan). -/
structure TieredRate where
  min : Decimal
  max : Option Decimal
  price : Decimal
  confidence : ℚ
deriving DecidableEq, Repr

namespace DB

/-- `PostgresStore.GetActiveSnapshot`:
`WHERE cloud = $1 AND region = $2 AND provider_alias = $3 AND is_active =
TRUE` — the query carries no `state` predicate.  `QueryRow` yields the first
matching row. -/
def getActiveSnapshot (db : DB) (cloud region palias : String) : Option SnapshotRow :=
  db.snapshots.find? fun s =>
    decide (s.cloud = cloud ∧ s.region = region ∧ s.providerAlias = palias ∧ s.isActive)

/-- `PostgresStore.FindSnapshotByHash`: filter on the tuple and hash,
`ORDER BY created_at DESC LIMIT 1`. -/
def findSnapshotByHash (db : DB) (cloud region palias hash : String) : Option SnapshotRow :=
  let ms := db.snapshots.filter fun s =>
    decide (s.cloud = cloud ∧ s.region = region ∧ s.providerAlias = palias ∧ s.hash = hash)
  ms.foldl (fun acc s =>
    match acc with
    | none => some s
    | some b => if b.createdAt < s.createdAt then some s else acc) none

/-- `PostgresStore.CountRates`. -/
def countRates (db : DB) (snapshotId : Nat) : Nat :=
  (db.rates.filter fun r => decide (r.snapshotId = snapshotId)).length

/-- The row set produced by the three-way join shared by `ResolveRate` and
`ResolveTieredRates`:
`pricing_snapshots ps JOIN pricing_rate_keys rk ON rk.cloud = ps.cloud AND
rk.region = ps.region JOIN pricing_rates pr ON pr.snapshot_id = ps.id AND
pr.rate_key_id = rk.id` filtered by the WHERE clause — which requires
`ps.is_active = TRUE` but says nothing about `ps.state`. -/
def resolveRows (db : DB) (cloud service productFamily region : String)
    (attrs : List (String × String)) (unit palias : String) :
    List (SnapshotRow × RateKey × RateRow) :=
  db.snapshots.flatMap fun ps =>
    db.rateKeys.flatMap fun rk =>
      db.rates.filterMap fun pr =>
        if rk.cloud = ps.cloud ∧ rk.region = ps.region ∧
           pr.snapshotId = ps.id ∧ pr.rateKeyId = rk.id ∧
           ps.cloud = cloud ∧ ps.region = region ∧
           ps.providerAlias = palias ∧ ps.isActive = true ∧
           rk.service = service ∧ rk.productFamily = productFamily ∧
           attrsContains rk.attributes attrs ∧ pr.unit = unit
        then some (ps, rk, pr) else none

/-- `PostgresStore.ResolveRate`: `ORDER BY pr.tier_min NULLS FIRST LIMIT 1`
(among rows of equal `tier_min` SQL leaves the choice open; the model takes
the first in row order). -/
def resolveRate (db : DB) (cloud service productFamily region : String)
    (attrs : List (String × String)) (unit palias : String) : Option ResolvedRate :=
  let rows := resolveRows db cloud service productFamily region attrs unit palias
  let best := rows.foldl (fun acc row =>
    match acc with
    | none => some row
    | some b => if tierMinLt row.2.2.tierMin b.2.2.tierMin then some row else acc) none
  best.map fun (ps, _, pr) =>
    ⟨pr.price, pr.currency, pr.confidence, pr.tierMin, pr.tierMax, ps.id, ps.source⟩

/-- Insertion into a list sorted by `tier_min NULLS FIRST`. -/
def insertByTierMin (a : SnapshotRow × RateKey × RateRow) :
    List (SnapshotRow × RateKey × RateRow) → List (SnapshotRow × RateKey × RateRow)
  | [] => [a]
  | b :: t =>
    if tierMinLt b.2.2.tierMin a.2.2.tierMin then b :: insertByTierMin a t
    else a :: b :: t

/-- Sort rows by `tier_min NULLS FIRST`. -/
def sortByTierMin : List (SnapshotRow × RateKey × RateRow) →
    List (SnapshotRow × RateKey × RateRow)
  | [] => []
  | a :: t => insertByTierMin a (sortByTierMin t)

/-- `PostgresStore.ResolveTieredRates`: the same join, all rows, ordered by
`tier_min NULLS FIRST`; a NULL `tier_min` scans as the zero decimal. -/
def resolveTieredRates (db : DB) (cloud service productFamily region : String)
    (attrs : List (String × String)) (unit palias : String) : List TieredRate :=
  let rows := resolveRows db cloud service productFamily region attrs unit palias
  (sortByTierMin rows).map fun (_, _, pr) =>
    ⟨pr.tierMin.getD ⟨0, 0⟩, pr.tierMax, pr.price, pr.confidence⟩

/-- The SQL function `activate_snapshot` (final definition, migration `005`):
archive every other active snapshot of the target's tuple, then set the
target active and ready.  When the target id is absent the subselects are
NULL, no row matches either UPDATE, and the table is unchanged. -/
def sqlActivateSnapshot (db : DB) (id : Nat) : DB :=
  match db.snapshots.find? (fun s => decide (s.id = id)) with
  | none => db
  | some t =>
    { db with
      snapshots := db.snapshots.map fun s =>
        if s.isActive ∧ s.cloud = t.cloud ∧ s.region = t.region ∧
           s.providerAlias = t.providerAlias ∧ s.id ≠ id
        then { s with isActive := false, state := "archived" }
        else if s.id = id then { s with isActive := true, state := "ready" }
        else s }

/-- `PostgresStore.ActivateSnapshot` (standalone variant): executes
`SELECT activate_snapshot($1)`. -/
def storeActivateSnapshot (db : DB) (id : Nat) : DB := sqlActivateSnapshot db id

/-- `PostgresTx.ActivateSnapshot` (transaction variant, db/postgres.go):
two inline UPDATEs — `SET is_active = FALSE` on the other active snapshots of
the target's tuple, then `SET is_active = TRUE` on the target.  Neither
UPDATE touches the `state` column. -/
def txActivateSnapshot (db : DB) (id : Nat) : DB :=
  let step1 : List SnapshotRow :=
    match db.snapshots.find? (fun s => decide (s.id = id)) with
    | none => db.snapshots
    | some t =>
      db.snapshots.map fun s =>
        if s.id ≠ id ∧ s.isActive ∧ s.cloud = t.cloud ∧ s.region = t.region ∧
           s.providerAlias = t.providerAlias
        then { s with isActive := false } else s
  { db with
    snapshots := step1.map fun s => if s.id = id then { s with isActive := true } else s }

end DB

/-! ## Validator (ingestion governance)

`IngestionValidator` and its checks, translated from the governance source.
The Go coverage comparison is done in `float64`; the counts involved are
machine integers converted exactly, and the model computes the percentage in
exact rational arithmetic. -/

/-- `ingestion.IngestionContract`. -/
structure IngestionContract where
  cloud : String
  service : String
  requiredDimensions : List String
  minRateCount : Nat
deriving DecidableEq, Repr

/-- `ingestion.DefaultContracts`. -/
def defaultContracts : List IngestionContract :=
  [⟨"aws", "AmazonEC2", [], 100⟩,
   ⟨"aws", "AmazonRDS", [], 50⟩,
   ⟨"aws", "AmazonS3", [], 10⟩,
   ⟨"aws", "AWSLambda", [], 5⟩,
   ⟨"aws", "AWSELB", [], 5⟩,
   ⟨"aws", "AmazonDynamoDB", [], 5⟩,
   ⟨"azure", "Virtual Machines", [], 100⟩,
   ⟨"azure", "Storage", [], 20⟩,
   ⟨"gcp", "Compute Engine", [], 100⟩,
   ⟨"gcp", "Cloud Storage", [], 10⟩]

/-- `IngestionValidator` state: the contract set and the coverage floor
(`NewIngestionValidator` seeds the defaults and 95.0). -/
structure IngestionValidator where
  contracts : List IngestionContract
  minCoveragePercent : ℚ
deriving Repr

/-- `NewIngestionValidator()`. -/
def newIngestionValidator : IngestionValidator := ⟨defaultContracts, 95⟩

/-- `IngestionValidator.ValidatePricesPositive`: reject the first rate whose
price has a negative sign. -/
def validatePricesPositive (rates : List NormalizedRate) : Option String :=
  (rates.find? fun r => r.price.isNegative).map fun _ => "negative price found"

/-- `IngestionValidator.ValidateDimensionsComplete`: for every contract whose
service occurs in the ingested set, every required dimension key must occur
in some rate of that service. -/
def validateDimensionsComplete (v : IngestionValidator)
    (rates : List NormalizedRate) : Option String :=
  (v.contracts.find? fun c =>
    let svcRates := rates.filter fun r => decide (r.rateKey.service = c.service)
    decide (svcRates ≠ []) &&
      c.requiredDimensions.any fun dim =>
        !svcRates.any fun r => r.rateKey.attributes.any fun kv => decide (kv.1 = dim)
  ).map fun c => "service " ++ c.service ++ " missing required dimension"

/-- `IngestionValidator.ValidateCoverageNotDecreased`: a zero-rate snapshot is
rejected outright; otherwise the new count must reach `minCoveragePercent`
percent of the previous count. -/
def validateCoverageNotDecreased (v : IngestionValidator)
    (newCount prevCount : Nat) : Option String :=
  if newCount = 0 then some "new snapshot has 0 rates"
  else if (newCount : ℚ) / (prevCount : ℚ) * 100 < v.minCoveragePercent then
    some "coverage decreased"
  else none

/-- `IngestionValidator.ValidateAll`: prices, dimensions, then — only when a
previous rate count is known to be positive — the coverage floor.  The
duplicate check is disabled in the source (tiered rates legitimately share a
rate key). -/
def validateAll (v : IngestionValidator) (rates : List NormalizedRate)
    (prevRateCount : Nat) : Option String :=
  match validatePricesPositive rates with
  | some e => some e
  | none =>
    match validateDimensionsComplete v rates with
    | some e => some e
    | none =>
      if 0 < prevRateCount then validateCoverageNotDecreased v rates.length prevRateCount
      else none

/-! ## Backup manager (db/ingestion/backup.go) -/

/-- `ingestion.SnapshotBackup`. -/
structure SnapshotBackup where
  provider : String
  region : String
  palias : String
  timestamp : Nat
  contentHash : String
  rateCount : Nat
  schemaVersion : String
  rates : List NormalizedRate
deriving DecidableEq, Repr

/-- `BackupManager.ValidateBackup`: non-empty header fields, rate-count header
versus array length, and the recomputed content hash against the stored one.
(`ReadBackup` runs this validation on every successful read.) -/
def validateBackup (b : SnapshotBackup) : Option String :=
  if b.provider = "" then some "backup missing provider"
  else if b.region = "" then some "backup missing region"
  else if b.contentHash = "" then some "backup missing content hash"
  else if b.rateCount = 0 then some "backup has 0 rates"
  else if b.rates.length ≠ b.rateCount then some "backup rate count mismatch"
  else if calculateHash b.rates ≠ b.contentHash then some "backup content hash mismatch"
  else none

/-! ## Transactions and the commit flows

A transaction (`PostgresTx`) is a working copy of the database: the
transaction's writes act on the copy, `Commit` publishes the copy, and
`Rollback` (the deferred call in every commit flow) discards it, leaving the
published database exactly as it was at `BeginTx`.

External database failures (connection loss, etc.) are modelled by a
schedule of booleans consumed one entry per database call (`true` = that call
fails); an exhausted schedule never fails. -/

/-- Observable effects of a run, in chronological order. -/
inductive Ev
  | fetch
  | writeBackup
  | readBackup
  | backupVerified
  | beginTx
  | txCommitted
deriving DecidableEq, Repr

/-- Pop the next external-failure flag. -/
def oPop : List Bool → Bool × List Bool
  | [] => (false, [])
  | b :: r => (b, r)

/-- In-flight transaction state: the working copy, the remaining failure
schedule and the fresh-uuid counter. -/
structure TxS where
  tx : DB
  sched : List Bool
  nextId : Nat
deriving Repr

/-- `Tx.CreateSnapshot`: INSERT into `pricing_snapshots`.  The INSERT lists no
`state` column, so the row gets the SQL default `'pending'` (the caller
builds the row that way); the `unique_snapshot` constraint and the partial
unique index on active rows are enforced. -/
def createSnapshotTx (s : TxS) (snap : SnapshotRow) : Except String TxS :=
  let p := oPop s.sched
  let s := { s with sched := p.2 }
  if p.1 then .error "db error"
  else if s.tx.snapshots.any fun r => decide (r.id = snap.id) then
    .error "duplicate snapshot id"
  else if s.tx.snapshots.any fun r =>
      decide (r.cloud = snap.cloud ∧ r.region = snap.region ∧
        r.providerAlias = snap.providerAlias ∧ r.hash = snap.hash) then
    .error "unique_snapshot violation"
  else if snap.isActive && s.tx.snapshots.any fun r =>
      decide (r.isActive ∧ r.cloud = snap.cloud ∧ r.region = snap.region ∧
        r.providerAlias = snap.providerAlias) then
    .error "idx_active_snapshot violation"
  else .ok { s with tx := { s.tx with snapshots := s.tx.snapshots ++ [snap] } }

/-- `Tx.UpsertRateKey`: `ON CONFLICT (cloud, service, product_family, region,
attributes) DO UPDATE SET id = pricing_rate_keys.id RETURNING id` — an
existing key's id is returned unchanged, otherwise the fresh row is
inserted. -/
def upsertRateKeyTx (s : TxS) (k : RateKey) : Except String (Nat × TxS) :=
  let p := oPop s.sched
  let s := { s with sched := p.2 }
  if p.1 then .error "db error"
  else
    match s.tx.rateKeys.find? fun r =>
        decide (r.cloud = k.cloud ∧ r.service = k.service ∧
          r.productFamily = k.productFamily ∧ r.region = k.region) &&
        attrsEq r.attributes k.attributes with
    | some r => .ok (r.id, s)
    | none => .ok (k.id, { s with tx := { s.tx with rateKeys := s.tx.rateKeys ++ [k] } })

/-- `Tx.CreateRate`: INSERT into `pricing_rates`, subject to the
`unique_rate` constraint `(snapshot_id, rate_key_id, unit, tier_min,
tier_max)` with SQL NULL semantics. -/
def createRateTx (s : TxS) (r : RateRow) : Except String TxS :=
  let p := oPop s.sched
  let s := { s with sched := p.2 }
  if p.1 then .error "db error"
  else if s.tx.rates.any fun x =>
      decide (x.snapshotId = r.snapshotId ∧ x.rateKeyId = r.rateKeyId ∧
        x.unit = r.unit) &&
      tierEqSQL x.tierMin r.tierMin && tierEqSQL x.tierMax r.tierMax then
    .error "unique_rate violation"
  else .ok { s with tx := { s.tx with rates := s.tx.rates ++ [r] } }

/-- `Tx.ActivateSnapshot` with an external-failure check. -/
def activateTx (s : TxS) (id : Nat) : Except String TxS :=
  let p := oPop s.sched
  if p.1 then .error "db error"
  else .ok { s with sched := p.2, tx := s.tx.txActivateSnapshot id }

/-- The rate-insertion loop shared verbatim by `Lifecycle.phaseCommitting`,
`Pipeline.phaseCommit` and `StreamingLifecycle.streamCommit` (the streaming
variant walks the same list in batch-sized chunks in the same order, with a
GC call between chunks): for each normalized rate, assign a fresh id to its
key, upsert the key, then insert the rate row under the snapshot. -/
def insertRatesTx (snapId : Nat) : List NormalizedRate → TxS → Except String TxS
  | [], s => .ok s
  | nr :: rest, s =>
    let kid := s.nextId
    let s := { s with nextId := s.nextId + 1 }
    match upsertRateKeyTx s { nr.rateKey with id := kid } with
    | .error e => .error e
    | .ok (keyId, s) =>
      let rid := s.nextId
      let s := { s with nextId := s.nextId + 1 }
      match createRateTx s
          ⟨rid, snapId, keyId, nr.unit, nr.price, nr.currency, nr.confidence,
           nr.tierMin, nr.tierMax, none⟩ with
      | .error e => .error e
      | .ok s => insertRatesTx snapId rest s

/-- Snapshot insert, rate loop, then activation — the body of the single
transaction. -/
def insertAndActivate (s : TxS) (snap : SnapshotRow) (rates : List NormalizedRate) :
    Except String TxS :=
  match createSnapshotTx s snap with
  | .error e => .error e
  | .ok s =>
    match insertRatesTx snap.id rates s with
    | .error e => .error e
    | .ok s => activateTx s snap.id

/-- Outcome of a commit phase. -/
structure CommitOut where
  db : DB
  res : Except String Nat
  txOpened : Bool
  sched : List Bool
  nextId : Nat
  trace : List Ev
deriving Repr

/-- The single-transaction commit shape (§2–6 of the commit flow): `BeginTx`,
insert snapshot, insert rates, activate, `Commit`; any error before a
successful `Commit` reaches the deferred `Rollback`, so the published
database is the one from `BeginTx`. -/
def commitTx (db : DB) (snap : SnapshotRow) (rates : List NormalizedRate)
    (sched : List Bool) (nextId : Nat) : CommitOut :=
  let p := oPop sched
  if p.1 then ⟨db, .error "failed to begin transaction", false, p.2, nextId, []⟩
  else
    match insertAndActivate ⟨db, p.2, nextId⟩ snap rates with
    | .error e => ⟨db, .error e, true, [], nextId, [.beginTx]⟩
    | .ok s =>
      let q := oPop s.sched
      if q.1 then ⟨db, .error "commit failed", true, q.2, s.nextId, [.beginTx]⟩
      else ⟨s.tx, .ok snap.id, true, q.2, s.nextId, [.beginTx, .txCommitted]⟩

/-- The idempotency check plus commit, shared by `Lifecycle.phaseCommitting`
and `Pipeline.phaseCommit`: if `FindSnapshotByHash` (its error discarded,
matching `existing, _ :=` in the source) returns a snapshot, the run returns
that snapshot's id without opening a transaction; otherwise a fresh snapshot
row (inactive, state `'pending'` from the SQL default) is committed. -/
def findThenCommit (db : DB) (cloud region palias source : String)
    (rates : List NormalizedRate) (contentHash : String)
    (sched : List Bool) (nextId time : Nat) : CommitOut :=
  let p := oPop sched
  let existing := if p.1 then none else db.findSnapshotByHash cloud region palias contentHash
  match existing with
  | some s => ⟨db, .ok s.id, false, p.2, nextId, []⟩
  | none =>
    let snap : SnapshotRow :=
      ⟨nextId, cloud, region, palias, source, time, time, none, contentHash,
       "1.0", false, "pending", time⟩
    commitTx db snap rates p.2 (nextId + 1)

/-- `Lifecycle.phaseCommitting`: the hard backup guards, then the idempotency
check, then the single transaction. -/
def lifecycleCommitting (db : DB) (backupVerified hasBackupPath : Bool)
    (cloud region palias : String) (rates : List NormalizedRate)
    (contentHash : String) (sched : List Bool) (nextId time : Nat) : CommitOut :=
  if !backupVerified then
    ⟨db, .error "FATAL: cannot commit without verified backup", false, sched, nextId, []⟩
  else if !hasBackupPath then
    ⟨db, .error "FATAL: backup path is empty", false, sched, nextId, []⟩
  else
    findThenCommit db cloud region palias "strict_ingestion_lifecycle"
      rates contentHash sched nextId time

/-- `Pipeline.phaseCommit`. -/
def pipelineCommit (db : DB) (cloud region palias : String)
    (rates : List NormalizedRate) (contentHash : String)
    (sched : List Bool) (nextId time : Nat) : CommitOut :=
  findThenCommit db cloud region palias "manual_ingestion_pipeline"
    rates contentHash sched nextId time

/-- `StreamingLifecycle.streamCommit`: no `FindSnapshotByHash` check — the
snapshot row is built and committed unconditionally. -/
def streamCommit (db : DB) (cloud region palias : String)
    (rates : List NormalizedRate) (sched : List Bool) (nextId time : Nat) : CommitOut :=
  let snap : SnapshotRow :=
    ⟨nextId, cloud, region, palias, "streaming_ingestion", time, time, none,
     calculateHash rates, "1.0", false, "pending", time⟩
  commitTx db snap rates sched (nextId + 1)

/-! ## The strict lifecycle (part: lifecycle state machine source) -/

/-- `ingestion.IngestionPhase`. -/
inductive IngestionPhase
  | init
  | fetching
  | normalizing
  | validating
  | staging
  | backedUp
  | committing
  | active
  | failed
deriving DecidableEq, Repr

/-- `ingestion.LifecycleConfig` (the timeout is carried but plays no role in
the sequential embedding). -/
structure LifecycleConfig where
  provider : String
  region : String
  palias : String
  environment : String
  backupDir : String
  dryRun : Bool
  allowMockPricing : Bool
  minCoverage : ℚ
  timeout : Nat
deriving Repr

/-- `ingestion.DefaultLifecycleConfig()`. -/
def defaultLifecycleConfig : LifecycleConfig :=
  ⟨"", "", "default", "production", "./pricing-backups", false, false, 95, 1800⟩

/-- `ingestion.LifecycleResult` (`BackupPath` is modelled by
`backupWritten`). -/
structure LifecycleResult where
  success : Bool
  phase : IngestionPhase
  message : String
  errorMsg : String
  snapshotId : Option Nat
  backupWritten : Bool
  contentHash : String
  rawCount : Nat
  normalizedCount : Nat
deriving DecidableEq, Repr

/-- The environment a run interacts with: the fetcher's outcome and optional
`IsRealAPI` capability, the normalizer, disk success flags, a corruption
function applied to the backup file between write and read-back (`id` when
the disk is healthy), and the database failure schedule. -/
structure Env where
  fetchResult : Except String (List RawPrice)
  normalizeFn : List RawPrice → Except String (List NormalizedRate)
  isRealAPI : Option Bool
  writeOk : Bool
  readOk : Bool
  tamper : SnapshotBackup → SnapshotBackup
  sched : List Bool

/-- `Lifecycle.enforceProductionGuards`: mock pricing is fatal in production;
a fetcher that *provides* the `RealAPIFetcher` capability and answers `false`
is fatal in production.  A fetcher that does not provide the capability
passes the guard. -/
def enforceProductionGuards (cfg : LifecycleConfig) (isRealAPI : Option Bool) :
    Option String :=
  if cfg.environment = "production" ∧ cfg.allowMockPricing then
    some "FATAL: mock pricing forbidden in production environment"
  else
    match isRealAPI with
    | some r =>
      if ¬r ∧ cfg.environment = "production" then
        some "FATAL: fetcher is not a real API implementation"
      else none
    | none => none

/-- Failure data of the pre-commit phases (the message, the events so far,
the backup file if already written, and the counts the result reports). -/
structure PreFail where
  msg : String
  trace : List Ev
  file : Option SnapshotBackup
  rawCount : Nat
  normalizedCount : Nat

/-- State available when all pre-commit phases succeeded. -/
structure PreOk where
  raws : List RawPrice
  rates : List NormalizedRate
  contentHash : String
  sched : List Bool
  trace : List Ev
  file : Option SnapshotBackup

/-- Phases Init…BackedUp of `Lifecycle.Execute`: production guards, fetch,
normalize (content hash), validate (reading the previous snapshot's rate
count, errors of both reads discarded as in the source), stage, then the
mandatory write-and-verify backup.  No database write occurs anywhere in
these phases. -/
def lifecyclePre (env : Env) (cfg : LifecycleConfig) (db : DB) (time : Nat) :
    Except PreFail PreOk :=
  match enforceProductionGuards cfg env.isRealAPI with
  | some e => .error ⟨e, [], none, 0, 0⟩
  | none =>
  match env.fetchResult with
  | .error e => .error ⟨"fetch failed: " ++ e, [.fetch], none, 0, 0⟩
  | .ok raws =>
  if raws.length = 0 then .error ⟨"fetch returned 0 prices", [.fetch], none, 0, 0⟩
  else
  match env.normalizeFn raws with
  | .error e => .error ⟨"normalization failed: " ++ e, [.fetch], none, raws.length, 0⟩
  | .ok rates =>
  if rates.length = 0 then
    .error ⟨"normalization produced 0 rates", [.fetch], none, raws.length, 0⟩
  else
  let contentHash := calculateHash rates
  let p := oPop env.sched
  let prev := if p.1 then none else db.getActiveSnapshot cfg.provider cfg.region cfg.palias
  let pc : Nat × List Bool :=
    match prev with
    | none => (0, p.2)
    | some s =>
      let q := oPop p.2
      (if q.1 then 0 else db.countRates s.id, q.2)
  match validateAll { newIngestionValidator with minCoveragePercent := cfg.minCoverage }
      rates pc.1 with
  | some e => .error ⟨e, [.fetch], none, raws.length, rates.length⟩
  | none =>
  let b : SnapshotBackup :=
    ⟨cfg.provider, cfg.region, cfg.palias, time, contentHash, rates.length, "1.0", rates⟩
  if ¬env.writeOk then
    .error ⟨"backup failed", [.fetch], none, raws.length, rates.length⟩
  else if ¬env.readOk then
    .error ⟨"backup verification failed: backup read failed", [.fetch, .writeBackup],
      some b, raws.length, rates.length⟩
  else
  let fb := env.tamper b
  match validateBackup fb with
  | some e =>
    .error ⟨"backup verification failed: " ++ e, [.fetch, .writeBackup, .readBackup],
      some b, raws.length, rates.length⟩
  | none =>
  if fb.contentHash ≠ contentHash then
    .error ⟨"backup verification failed: backup hash mismatch",
      [.fetch, .writeBackup, .readBackup], some b, raws.length, rates.length⟩
  else
    .ok ⟨raws, rates, contentHash, pc.2,
      [.fetch, .writeBackup, .readBackup, .backupVerified], some b⟩

/-- The complete outcome of an ingestion run: the published database, the
`LifecycleResult`, the Go `error` return value, the effect trace and the
backup file on disk. -/
structure RunOut where
  db : DB
  result : LifecycleResult
  err : Option String
  trace : List Ev
  file : Option SnapshotBackup

/-- `Lifecycle.Execute`: the eight-phase state machine.  Every failure is
routed through `Lifecycle.fail`, which returns a result with
`Success = false`, `Phase = failed` and the error string — paired with a
`nil` Go error; the success paths are routed through `Lifecycle.success`,
also paired with a `nil` Go error. -/
def lifecycleExecute (env : Env) (cfg : LifecycleConfig) (db : DB)
    (time nextId : Nat) : RunOut :=
  match lifecyclePre env cfg db time with
  | .error f =>
    ⟨db,
     ⟨false, .failed, "", f.msg, none, f.file.isSome, "", f.rawCount, f.normalizedCount⟩,
     none, f.trace, f.file⟩
  | .ok pre =>
    if cfg.dryRun then
      ⟨db,
       ⟨true, .active, "dry-run completed, no DB writes", "", none, true,
        pre.contentHash, pre.raws.length, pre.rates.length⟩,
       none, pre.trace, pre.file⟩
    else
      let co := lifecycleCommitting db true true cfg.provider cfg.region cfg.palias
        pre.rates pre.contentHash pre.sched nextId time
      match co.res with
      | .error e =>
        ⟨co.db,
         ⟨false, .failed, "", e, none, true, "", pre.raws.length, pre.rates.length⟩,
         none, pre.trace ++ co.trace, pre.file⟩
      | .ok sid =>
        ⟨co.db,
         ⟨true, .active, "ingestion complete", "", some sid, true, pre.contentHash,
          pre.raws.length, pre.rates.length⟩,
         none, pre.trace ++ co.trace, pre.file⟩

/-! ## The pipeline (part: ingestion pipeline source) -/

/-- `ingestion.PipelineConfig`. -/
structure PipelineConfig where
  provider : String
  region : String
  palias : String
  dryRun : Bool
  backupDir : String
  minCoveragePercent : ℚ
  timeout : Nat
deriving Repr

/-- Outcome of `Pipeline.Execute` (success flag, failing phase, snapshot id,
the Go error value, effects). -/
structure PipeOut where
  db : DB
  success : Bool
  failedPhase : Option String
  snapshotId : Option Nat
  err : Option String
  trace : List Ev
  file : Option SnapshotBackup

/-- `Pipeline.Execute`: fetch → normalize → validate → backup → commit.
The backup phase only writes (no read-back verification); failures return a
result with the failing phase and a `nil` Go error. -/
def pipelineExecute (env : Env) (cfg : PipelineConfig) (db : DB)
    (time nextId : Nat) : PipeOut :=
  match env.fetchResult with
  | .error _ => ⟨db, false, some "fetch", none, none, [], none⟩
  | .ok raws =>
  if raws.length = 0 then ⟨db, false, some "fetch", none, none, [], none⟩
  else
  match env.normalizeFn raws with
  | .error _ => ⟨db, false, some "normalize", none, none, [.fetch], none⟩
  | .ok rates =>
  if rates.length = 0 then ⟨db, false, some "normalize", none, none, [.fetch], none⟩
  else
  let contentHash := calculateHash rates
  let p := oPop env.sched
  let prev := if p.1 then none else db.getActiveSnapshot cfg.provider cfg.region cfg.palias
  let pc : Nat × List Bool :=
    match prev with
    | none => (0, p.2)
    | some s =>
      let q := oPop p.2
      (if q.1 then 0 else db.countRates s.id, q.2)
  match validateAll
      { newIngestionValidator with minCoveragePercent := cfg.minCoveragePercent }
      rates pc.1 with
  | some _ => ⟨db, false, some "validate", none, none, [.fetch], none⟩
  | none =>
  let b : SnapshotBackup :=
    ⟨cfg.provider, cfg.region, cfg.palias, time, contentHash, rates.length, "1.0", rates⟩
  if ¬env.writeOk then ⟨db, false, some "backup", none, none, [.fetch], none⟩
  else if cfg.dryRun then
    ⟨db, true, none, none, none, [.fetch, .writeBackup], some b⟩
  else
    let co := pipelineCommit db cfg.provider cfg.region cfg.palias rates contentHash
      pc.2 nextId time
    match co.res with
    | .error _ =>
      ⟨co.db, false, some "commit", none, none, [.fetch, .writeBackup] ++ co.trace, some b⟩
    | .ok sid =>
      ⟨co.db, true, none, some sid, none, [.fetch, .writeBackup] ++ co.trace, some b⟩

/-! ## The streaming variant (part: streaming pipeline source) -/

/-- `ingestion.StreamingConfig`. -/
structure StreamingConfig where
  batchSize : Nat
  maxMemoryMB : Nat
  concurrentFetches : Nat
  enableCheckpointing : Bool
  gcInterval : Nat
deriving Repr

/-- `DefaultStreamingConfig()`. -/
def defaultStreamingConfig : StreamingConfig := ⟨10000, 2048, 2, true, 5⟩

/-- `LowMemoryConfig()`. -/
def lowMemoryConfig : StreamingConfig := ⟨5000, 1024, 1, true, 3⟩

/-- `HighMemoryConfig()`. -/
def highMemoryConfig : StreamingConfig := ⟨50000, 8192, 4, true, 10⟩

/-- Split a list into `size`-element chunks (fuel-indexed; the Go loop steps
through the slice by `BatchSize`). -/
def chunkList {α : Type} (size : Nat) : Nat → List α → List (List α)
  | 0, _ => []
  | _, [] => []
  | fuel + 1, l => l.take size :: chunkList size fuel (l.drop size)

/-- `StreamingLifecycle.streamFetchAndNormalize` after the fetch: normalize
batch by batch, *skipping* a batch whose normalization errors (the source
logs a warning and continues), and spill the normalized rows to the temp
file.  The temp-file JSON-lines round trip returns exactly the written rows
(`readTempFile` skips undecodable lines; none arise for rows the run itself
encoded). -/
def streamNormalizeBatches (env : Env) (size : Nat) (raws : List RawPrice) :
    List NormalizedRate :=
  (chunkList size raws.length raws).foldl
    (fun acc batch =>
      match env.normalizeFn batch with
      | .ok nrs => acc ++ nrs
      | .error _ => acc)
    []

/-- `StreamingLifecycle.Execute`: stream fetch/normalize to temp files, merge
and validate — the merge step calls `ValidateAll(allRates, 0)` with a literal
previous count of `0` — write the backup (no read-back), then commit through
`streamCommit` unless dry-run.  All outcomes carry a `nil` Go error. -/
def streamingExecute (env : Env) (scfg : StreamingConfig) (cfg : LifecycleConfig)
    (db : DB) (time nextId : Nat) : RunOut :=
  match env.fetchResult with
  | .error e =>
    ⟨db, ⟨false, .failed, "", "failed to fetch pricing: " ++ e, none, false, "", 0, 0⟩,
     none, [], none⟩
  | .ok raws =>
  let allRates := streamNormalizeBatches env scfg.batchSize raws
  match validateAll { newIngestionValidator with minCoveragePercent := cfg.minCoverage }
      allRates 0 with
  | some e =>
    ⟨db, ⟨false, .failed, "", "validation failed: " ++ e, none, false, "",
      raws.length, allRates.length⟩, none, [.fetch], none⟩
  | none =>
  let b : SnapshotBackup :=
    ⟨cfg.provider, cfg.region, cfg.palias, time, calculateHash allRates,
     allRates.length, "1.0", allRates⟩
  if ¬env.writeOk then
    ⟨db, ⟨false, .failed, "", "backup failed", none, false, "",
      raws.length, allRates.length⟩, none, [.fetch], none⟩
  else if cfg.dryRun then
    ⟨db, ⟨true, .active, "streaming ingestion complete", "", none, true,
      calculateHash allRates, raws.length, allRates.length⟩,
     none, [.fetch, .writeBackup], some b⟩
  else
    let co := streamCommit db cfg.provider cfg.region cfg.palias allRates
      env.sched nextId time
    match co.res with
    | .error e =>
      ⟨co.db, ⟨false, .failed, "", "commit failed: " ++ e, none, true, "",
        raws.length, allRates.length⟩, none, [.fetch, .writeBackup] ++ co.trace, some b⟩
    | .ok sid =>
      ⟨co.db, ⟨true, .active, "streaming ingestion complete", "", some sid, true,
        calculateHash allRates, raws.length, allRates.length⟩,
       none, [.fetch, .writeBackup] ++ co.trace, some b⟩

/-! ## Tiered cost calculation (db resolver source) -/

/-- `db.CalculateTieredCost`, translated line by line: walk the tiers in
order; stop when nothing remains; a bounded tier absorbs at most
`max - min`; an unbounded tier absorbs everything; sum the tier costs and
track the smallest confidence seen (starting from `1.0`). -/
def calculateTieredCostLoop (remaining totalCost : Decimal) (minConf : ℚ) :
    List TieredRate → Decimal × ℚ
  | [] => (totalCost, minConf)
  | t :: rest =>
    if remaining.lessThanOrEqual Decimal.zero then (totalCost, minConf)
    else
      let tierUsage :=
        match t.max with
        | none => remaining
        | some mx =>
          let tierSize := mx.sub t.min
          if remaining.greaterThan tierSize then tierSize else remaining
      let tierCost := tierUsage.mul t.price
      let newMin := if t.confidence < minConf then t.confidence else minConf
      calculateTieredCostLoop (remaining.sub tierUsage) (totalCost.add tierCost)
        newMin rest

/-- `db.CalculateTieredCost(usage, tiers)`. -/
def CalculateTieredCost (usage : Decimal) (tiers : List TieredRate) : Decimal × ℚ :=
  if tiers.isEmpty then (Decimal.zero, 0)
  else calculateTieredCostLoop usage Decimal.zero 1 tiers

/-- A tier over exact rationals, for stating the specification-side greedy
consumption. -/
structure TierQ where
  min : ℚ
  max : Option ℚ
  price : ℚ
  confidence : ℚ
deriving DecidableEq, Repr

/-- The rational view of a stored tier. -/
def TieredRate.toQ (t : TieredRate) : TierQ :=
  ⟨t.min.toRat, t.max.map Decimal.toRat, t.price.toRat, t.confidence⟩

/-- Specification-side greedy consumption (§ "Tiered calculation" of the
spec): while usage remains, a bounded tier is allocated
`min(U_remaining, max - min)` and an unbounded tier absorbs all remaining
usage (after which no further tier is consumed).  Returns the consumed tiers
with their allocations. -/
def specConsumed (u : ℚ) : List TierQ → List (TierQ × ℚ)
  | [] => []
  | t :: rest =>
    if u ≤ 0 then []
    else
      match t.max with
      | none => [(t, u)]
      | some mx =>
        let alloc := min u (mx - t.min)
        (t, alloc) :: specConsumed (u - alloc) rest

/-- Specification-side cost: Σ allocation × tier price over the consumed
tiers. -/
def specCost (u : ℚ) (ts : List TierQ) : ℚ :=
  ((specConsumed u ts).map fun p => p.2 * p.1.price).sum

/-- Specification-side confidence: the minimum confidence across the consumed
tiers (`1` when no tier is consumed, matching the loop's initial value). -/
def specMinConf (u : ℚ) (ts : List TierQ) : ℚ :=
  match (specConsumed u ts).map fun p => p.1.confidence with
  | [] => 1
  | c :: cs => cs.foldl min c

/-! ## Concrete fixtures used by the witnesses and counterexamples -/

/-- The empty database. -/
def db0 : DB := ⟨[], [], []⟩

/-- A raw price record (values as fetched for EC2 on-demand pricing). -/
def raw0 : RawPrice :=
  ⟨"SKU1", "AmazonEC2", "Compute Instance", "us-east-1", "Hrs", "0.0104", "USD",
   [("instanceType", "t3.micro"), ("operatingSystem", "Linux")], none, none, none⟩

/-- A normalized EC2 rate. -/
def nr0 : NormalizedRate :=
  ⟨⟨0, "aws", "AmazonEC2", "Compute Instance", "us-east-1",
    [("instance_type", "t3.micro"), ("os", "linux")]⟩,
   "hours", ⟨104, -4⟩, "USD", 1, none, none⟩

/-- A one-rate normalized result (passes every validator check when no
previous snapshot exists). -/
def rates5 : List NormalizedRate := [nr0]

/-- A committed-and-activated snapshot row exactly as the Go transaction path
produces it: the INSERT leaves `state` at its SQL default `'pending'` and
`PostgresTx.ActivateSnapshot` flips only `is_active`. -/
def snap1 : SnapshotRow :=
  ⟨1, "aws", "us-east-1", "default", "strict_ingestion_lifecycle", 0, 0, none,
   "h1", "1.0", true, "pending", 0⟩

/-- The rate key of `rate1`. -/
def key1 : RateKey :=
  ⟨2, "aws", "AmazonEC2", "Compute Instance", "us-east-1",
   [("instance_type", "t3.micro"), ("os", "linux")]⟩

/-- A rate row under `snap1`. -/
def rate1 : RateRow := ⟨3, 1, 2, "hours", ⟨104, -4⟩, "USD", 1, none, none, none⟩

/-- A database holding one active snapshot whose `state` is `'pending'`. -/
def db1 : DB := ⟨[snap1], [key1], [rate1]⟩

/-- An old active snapshot in state `'ready'`. -/
def sOld : SnapshotRow :=
  ⟨1, "aws", "us-east-1", "default", "aws_pricing_api", 0, 0, none, "hA", "1.0",
   true, "ready", 0⟩

/-- A newly inserted snapshot (inactive, SQL-default state `'pending'`) for
the same (cloud, region, alias) tuple. -/
def sNew : SnapshotRow :=
  ⟨2, "aws", "us-east-1", "default", "aws_pricing_api", 1, 1, none, "hB", "1.0",
   false, "pending", 1⟩

/-- A database about to activate snapshot 2 over snapshot 1. -/
def db2 : DB := ⟨[sOld, sNew], [], []⟩

/-- A rate key shared by two pricing tiers (S3 outbound data transfer). -/
def tk6 : RateKey :=
  ⟨0, "aws", "AmazonS3", "Data Transfer", "us-east-1",
   [("transfer_type", "aws outbound")]⟩

/-- First tier: 0–10240 GB at 0.09. -/
def r6a : NormalizedRate :=
  ⟨tk6, "GB", ⟨9, -2⟩, "USD", 1, some ⟨0, 0⟩, some ⟨10240, 0⟩⟩

/-- Second tier: above 10240 GB at 0.085 — same rate key and unit as `r6a`,
different price. -/
def r6b : NormalizedRate :=
  ⟨tk6, "GB", ⟨85, -3⟩, "USD", 1, some ⟨10240, 0⟩, none⟩

/-- A previously committed snapshot that already carries the content hash of
`rates5`. -/
def snap4 : SnapshotRow :=
  ⟨1, "aws", "us-east-1", "default", "streaming_ingestion", 0, 0, none,
   calculateHash rates5, "1.0", true, "ready", 0⟩

/-- A database in which `rates5` has already been ingested. -/
def db4 : DB := ⟨[snap4], [], []⟩

/-- A previous active, ready snapshot with three committed rates. -/
def snapPrev : SnapshotRow :=
  ⟨1, "aws", "us-east-1", "default", "aws_pricing_api", 0, 0, none, "hPrev",
   "1.0", true, "ready", 0⟩

/-- A database whose active snapshot owns three rates (so any new ingest with
fewer than ⌈95%·3⌉ rates is below the coverage floor). -/
def db7 : DB :=
  ⟨[snapPrev], [],
   [⟨100, 1, 2, "hours", ⟨1, 0⟩, "USD", 1, none, none, none⟩,
    ⟨101, 1, 2, "GB-month", ⟨2, 0⟩, "USD", 1, none, none, none⟩,
    ⟨102, 1, 2, "requests", ⟨3, 0⟩, "USD", 1, none, none, none⟩]⟩

/-- A healthy environment: the fetch yields one raw price, normalization
yields `rates5`, the fetcher claims to be a real API, the disk works, the
backup file is not corrupted, and no database call fails. -/
def envOk : Env :=
  ⟨.ok [raw0], fun _ => .ok rates5, some true, true, true, id, []⟩

/-- The healthy environment with a fetcher that does *not* provide the
`IsRealAPI` capability. -/
def envNoCap : Env :=
  ⟨.ok [raw0], fun _ => .ok rates5, none, true, true, id, []⟩

/-- An environment whose fetch fails. -/
def envFetchFail : Env :=
  ⟨.error "connection refused", fun _ => .ok rates5, some true, true, true, id, []⟩

/-- A production lifecycle configuration for aws/us-east-1. -/
def cfgA : LifecycleConfig :=
  ⟨"aws", "us-east-1", "default", "production", "./pricing-backups", false,
   false, 95, 1800⟩

/-- The same configuration with mock pricing allowed. -/
def cfgMock : LifecycleConfig :=
  ⟨"aws", "us-east-1", "default", "production", "./pricing-backups", false,
   true, 95, 1800⟩

/-- A pipeline configuration for aws/us-east-1. -/
def pcfgA : PipelineConfig :=
  ⟨"aws", "us-east-1", "default", false, "./pricing-backups", 95, 1800⟩

/-- The tier pair of the specification's tiered-cost example:
[(0, 10, $0.10), (10, ∞, $0.05)]. -/
def tiers9 : List TieredRate :=
  [⟨⟨0, 0⟩, some ⟨10, 0⟩, ⟨10, -2⟩, 1⟩, ⟨⟨10, 0⟩, none, ⟨5, -2⟩, 1⟩]

/-- Decidable equality for `Except` results. -/
instance {e a : Type} [DecidableEq e] [DecidableEq a] : DecidableEq (Except e a) := fun x y =>
  match x, y with
  | .ok u, .ok v =>
    if h : u = v then .isTrue (by rw [h]) else .isFalse (by intro hh; cases hh; exact h rfl)
  | .error u, .error v =>
    if h : u = v then .isTrue (by rw [h]) else .isFalse (by intro hh; cases hh; exact h rfl)
  | .ok _, .error _ => .isFalse (by intro hh; cases hh)
  | .error _, .ok _ => .isFalse (by intro hh; cases hh)

/-! ## Theorems -/

/-- C1 (code_bug evaluation): the readers in db/postgres.go filter only on
`is_active`.  On a database holding one snapshot with `is_active = true` and
`state = 'pending'` — exactly the row the Go transaction commit path
produces — `GetActiveSnapshot` returns that snapshot, and `ResolveRate` and
`ResolveTieredRates` resolve its rates, although the snapshot's state is not
`ready`.  The claim that a snapshot row in any state other than ready is
never returned to a reader is therefore false of the code. -/
theorem spec2_c1 :
    db1.getActiveSnapshot "aws" "us-east-1" "default" = some snap1 ∧
    snap1.isActive = true ∧ snap1.state = "pending" ∧
    db1.resolveRate "aws" "AmazonEC2" "Compute Instance" "us-east-1"
      [("instance_type", "t3.micro")] "hours" "default" =
      some ⟨⟨104, -4⟩, "USD", 1, none, none, 1, "strict_ingestion_lifecycle"⟩ ∧
    db1.resolveTieredRates "aws" "AmazonEC2" "Compute Instance" "us-east-1"
      [("instance_type", "t3.micro")] "hours" "default" =
      [⟨⟨0, 0⟩, none, ⟨104, -4⟩, 1⟩] := by
  decide

/-- C2 (code_bug evaluation): activating snapshot 2 over the active snapshot
1 of the same (cloud, region, alias).  The transaction variant
(`PostgresTx.ActivateSnapshot`) flips only `is_active`: the superseded row
keeps `state = 'ready'` instead of `'archived'` and the target keeps
`state = 'pending'` instead of `'ready'`.  The standalone store variant
(`SELECT activate_snapshot($1)`, migration 005) performs the full state
transition the claim describes. -/
theorem spec2_c2 :
    (db2.txActivateSnapshot 2).snapshots =
      [{ sOld with isActive := false }, { sNew with isActive := true }] ∧
    ({ sOld with isActive := false } : SnapshotRow).state = "ready" ∧
    ({ sNew with isActive := true } : SnapshotRow).state = "pending" ∧
    (db2.storeActivateSnapshot 2).snapshots =
      [{ sOld with isActive := false, state := "archived" },
       { sNew with isActive := true, state := "ready" }] := by
  decide

/-- C6 (code_bug evaluation): `calculateHash` sorts only by the rate-key
string, so two tiered rates that share a rate key (and unit) but differ in
price keep their input order, and swapping them changes the hash: the hash
is not invariant under permutation of the rate set. -/
theorem spec2_c6 : calculateHash [r6a, r6b] ≠ calculateHash [r6b, r6a] := by
  decide

/-- C4 (counterexample): re-ingesting content whose hash is already present.
`StreamingLifecycle.streamCommit` performs no `FindSnapshotByHash` check: it
opens a transaction and attempts the insert, which trips the
`unique_snapshot` constraint, so the run errors out instead of returning the
existing snapshot's id — the streaming flow is not an idempotent no-op. -/
theorem spec2_c4_counterexample :
    db4.findSnapshotByHash "aws" "us-east-1" "default" (calculateHash rates5) =
      some snap4 ∧
    (streamCommit db4 "aws" "us-east-1" "default" rates5 [] 10 5).txOpened = true ∧
    (streamCommit db4 "aws" "us-east-1" "default" rates5 [] 10 5).res =
      .error "unique_snapshot violation" ∧
    (streamCommit db4 "aws" "us-east-1" "default" rates5 [] 10 5).db = db4 := by
  decide

/-- C5 (counterexample): a complete streaming run that commits to the
database with a trace containing the transaction events but no backup
read-back and no verification — the streaming variant writes the backup and
proceeds straight to commit. -/
theorem spec2_c5_counterexample :
    (streamingExecute envOk defaultStreamingConfig cfgA db0 0 10).result.success = true ∧
    Ev.beginTx ∈ (streamingExecute envOk defaultStreamingConfig cfgA db0 0 10).trace ∧
    Ev.txCommitted ∈ (streamingExecute envOk defaultStreamingConfig cfgA db0 0 10).trace ∧
    Ev.readBackup ∉ (streamingExecute envOk defaultStreamingConfig cfgA db0 0 10).trace ∧
    Ev.backupVerified ∉ (streamingExecute envOk defaultStreamingConfig cfgA db0 0 10).trace := by
  decide

/-- C7 (counterexample): the previous active snapshot owns 3 rates and the
new streaming ingest produces 1 rate (33% of the previous count, far below
the 95% floor), yet the streaming run validates against a previous count of
0, succeeds, commits, and swaps the active snapshot — the coverage floor is
not enforced and the previous snapshot does not stay active. -/
theorem spec2_c7_counterexample :
    ((1 : ℚ) / 3 * 100 < 95) ∧
    db7.countRates 1 = 3 ∧
    (streamingExecute envOk defaultStreamingConfig cfgA db7 5 10).result.success = true ∧
    ((streamingExecute envOk defaultStreamingConfig cfgA db7 5 10).db.getActiveSnapshot
        "aws" "us-east-1" "default").map SnapshotRow.id = some 10 ∧
    ((streamingExecute envOk defaultStreamingConfig cfgA db7 5 10).db.snapshots.find?
        fun s => decide (s.id = 1)).map SnapshotRow.isActive = some false := by
  exact ⟨by norm_num, by decide⟩

/-- C8 (counterexample): in the production environment with mock pricing
disallowed, a fetcher that does not provide the `IsRealAPI` capability passes
`enforceProductionGuards`, and the lifecycle proceeds to fetch (and, here,
all the way to a successful commit) — contradicting the claim that the run
fails unless the fetcher provides the capability and returns true. -/
theorem spec2_c8_counterexample :
    enforceProductionGuards cfgA envNoCap.isRealAPI = none ∧
    cfgA.environment = "production" ∧ cfgA.allowMockPricing = false ∧
    Ev.fetch ∈ (lifecycleExecute envNoCap cfgA db0 0 10).trace ∧
    (lifecycleExecute envNoCap cfgA db0 0 10).result.success = true := by
  decide

/-- Rollback shape of the single transaction: either the published database
is untouched, or the commit succeeded and the run returns the new snapshot's
id. -/
theorem commitTx_db_or (db : DB) (snap : SnapshotRow) (rates : List NormalizedRate)
    (sched : List Bool) (n : Nat) :
    (commitTx db snap rates sched n).db = db ∨
      (commitTx db snap rates sched n).res = .ok snap.id := by
  simp only [commitTx]
  split
  · exact .inl rfl
  · split
    · exact .inl rfl
    · split
      · exact .inl rfl
      · exact .inr rfl

/-- A failed transaction leaves the published database untouched. -/
theorem commitTx_err_db {db : DB} {snap : SnapshotRow} {rates : List NormalizedRate}
    {sched : List Bool} {n : Nat} {e : String}
    (h : (commitTx db snap rates sched n).res = .error e) :
    (commitTx db snap rates sched n).db = db := by
  rcases commitTx_db_or db snap rates sched n with hd | hok
  · exact hd
  · rw [h] at hok; cases hok

/-- A failed find-then-commit leaves the published database untouched. -/
theorem findThenCommit_err_db {db : DB} {cloud region palias source : String}
    {rates : List NormalizedRate} {h : String} {sched : List Bool} {n t : Nat}
    {e : String}
    (he : (findThenCommit db cloud region palias source rates h sched n t).res = .error e) :
    (findThenCommit db cloud region palias source rates h sched n t).db = db := by
  revert he
  simp only [findThenCommit]
  split
  · intro he; cases he
  · intro he; exact commitTx_err_db he

/-- A failed `Lifecycle.phaseCommitting` leaves the published database
untouched. -/
theorem lifecycleCommitting_err_db {db : DB} {bv hp : Bool}
    {cloud region palias : String} {rates : List NormalizedRate} {h : String}
    {sched : List Bool} {n t : Nat} {e : String}
    (he : (lifecycleCommitting db bv hp cloud region palias rates h sched n t).res = .error e) :
    (lifecycleCommitting db bv hp cloud region palias rates h sched n t).db = db := by
  revert he
  simp only [lifecycleCommitting]
  split
  · intro _; rfl
  · split
    · intro _; rfl
    · intro he; exact findThenCommit_err_db he

/-- Either a lifecycle run leaves the database untouched, or it succeeded. -/
theorem lifecycleExecute_db_or (env : Env) (cfg : LifecycleConfig) (db : DB)
    (time nid : Nat) :
    (lifecycleExecute env cfg db time nid).db = db ∨
      (lifecycleExecute env cfg db time nid).result.success = true := by
  simp only [lifecycleExecute]
  split
  · exact .inl rfl
  · split
    · exact .inl rfl
    · split
      · rename_i hco
        exact .inl (lifecycleCommitting_err_db hco)
      · exact .inr rfl

/-- Either a pipeline run leaves the database untouched, or it succeeded. -/
theorem pipelineExecute_db_or (env : Env) (cfg : PipelineConfig) (db : DB)
    (time nid : Nat) :
    (pipelineExecute env cfg db time nid).db = db ∨
      (pipelineExecute env cfg db time nid).success = true := by
  simp only [pipelineExecute]
  split
  · exact .inl rfl
  · split
    · exact .inl rfl
    · split
      · exact .inl rfl
      · split
        · exact .inl rfl
        · split
          · exact .inl rfl
          · split
            · exact .inl rfl
            · split
              · exact .inl rfl
              · split
                · rename_i hco
                  exact .inl (findThenCommit_err_db hco)
                · exact .inr rfl

/-- Either a streaming run leaves the database untouched, or it succeeded. -/
theorem streamingExecute_db_or (env : Env) (scfg : StreamingConfig)
    (cfg : LifecycleConfig) (db : DB) (time nid : Nat) :
    (streamingExecute env scfg cfg db time nid).db = db ∨
      (streamingExecute env scfg cfg db time nid).result.success = true := by
  simp only [streamingExecute]
  split
  · exact .inl rfl
  · split
    · exact .inl rfl
    · split
      · exact .inl rfl
      · split
        · exact .inl rfl
        · split
          · rename_i hco
            exact .inl (commitTx_err_db hco)
          · exact .inr rfl

/-- C3: in every commit flow (strict lifecycle, pipeline, streaming), if the
run fails — at any phase, including any step of the commit transaction after
`BeginTx` and before a successful `Commit` — the transaction is rolled back
and the published `pricing_snapshots` / `pricing_rates` tables are unchanged
relative to the pre-Execute state: no partially written snapshot or rate
rows ever become visible. -/
theorem spec2_c3 (env : Env) (lcfg : LifecycleConfig) (pcfg : PipelineConfig)
    (scfg : StreamingConfig) (db : DB) (time nid : Nat) :
    ((lifecycleExecute env lcfg db time nid).result.success = false →
      (lifecycleExecute env lcfg db time nid).db = db) ∧
    ((pipelineExecute env pcfg db time nid).success = false →
      (pipelineExecute env pcfg db time nid).db = db) ∧
    ((streamingExecute env scfg lcfg db time nid).result.success = false →
      (streamingExecute env scfg lcfg db time nid).db = db) := by
  refine ⟨fun h => ?_, fun h => ?_, fun h => ?_⟩
  · rcases lifecycleExecute_db_or env lcfg db time nid with hd | hs
    · exact hd
    · rw [hs] at h; cases h
  · rcases pipelineExecute_db_or env pcfg db time nid with hd | hs
    · exact hd
    · rw [hs] at h; cases h
  · rcases streamingExecute_db_or env scfg lcfg db time nid with hd | hs
    · exact hd
    · rw [hs] at h; cases h

/-- C3 witness: a run whose fetch fails leaves the database untouched, in all
three flows. -/
theorem spec2_c3_witness :
    ((lifecycleExecute envFetchFail cfgA db1 0 10).result.success = false ∧
      (lifecycleExecute envFetchFail cfgA db1 0 10).db = db1) ∧
    ((pipelineExecute envFetchFail pcfgA db1 0 10).success = false ∧
      (pipelineExecute envFetchFail pcfgA db1 0 10).db = db1) ∧
    ((streamingExecute envFetchFail defaultStreamingConfig cfgA db1 0 10).result.success = false ∧
      (streamingExecute envFetchFail defaultStreamingConfig cfgA db1 0 10).db = db1) :=
  ⟨⟨by decide, (spec2_c3 envFetchFail cfgA pcfgA defaultStreamingConfig db1 0 10).1 (by decide)⟩,
   ⟨by decide, (spec2_c3 envFetchFail cfgA pcfgA defaultStreamingConfig db1 0 10).2.1 (by decide)⟩,
   ⟨by decide, (spec2_c3 envFetchFail cfgA pcfgA defaultStreamingConfig db1 0 10).2.2 (by decide)⟩⟩

/-- Helper: with an empty failure schedule, a transaction-shaped commit
always opens a transaction. -/
theorem commitTx_txOpened (db : DB) (snap : SnapshotRow)
    (rates : List NormalizedRate) (n : Nat) :
    (commitTx db snap rates [] n).txOpened = true := by
  simp only [commitTx, oPop]
  split
  · rename_i hh; cases hh
  · split
    · rfl
    · split <;> rfl

/-- C4 (amended): in the strict lifecycle and the pipeline, when
`FindSnapshotByHash` returns an existing snapshot the commit phase is an
idempotent no-op — it returns that snapshot's id, leaves the database
unchanged and opens no transaction; the streaming variant performs no such
check and always opens a transaction (shown with no external database
failures). -/
theorem spec2_c4 (db : DB) (cloud region palias h : String)
    (rates : List NormalizedRate) (n t : Nat) (s : SnapshotRow)
    (hfind : db.findSnapshotByHash cloud region palias h = some s) :
    (lifecycleCommitting db true true cloud region palias rates h [] n t).res = .ok s.id ∧
    (lifecycleCommitting db true true cloud region palias rates h [] n t).db = db ∧
    (lifecycleCommitting db true true cloud region palias rates h [] n t).txOpened = false ∧
    (pipelineCommit db cloud region palias rates h [] n t).res = .ok s.id ∧
    (pipelineCommit db cloud region palias rates h [] n t).db = db ∧
    (pipelineCommit db cloud region palias rates h [] n t).txOpened = false ∧
    (∀ (rates2 : List NormalizedRate),
      (streamCommit db cloud region palias rates2 [] n t).txOpened = true) := by
  have key : findThenCommit db cloud region palias "strict_ingestion_lifecycle"
      rates h [] n t = ⟨db, .ok s.id, false, [], n, []⟩ := by
    simp [findThenCommit, oPop, hfind]
  have key2 : findThenCommit db cloud region palias "manual_ingestion_pipeline"
      rates h [] n t = ⟨db, .ok s.id, false, [], n, []⟩ := by
    simp [findThenCommit, oPop, hfind]
  refine ⟨?_, ?_, ?_, ?_, ?_, ?_, ?_⟩
  · simp [lifecycleCommitting, key]
  · simp [lifecycleCommitting, key]
  · simp [lifecycleCommitting, key]
  · simp [pipelineCommit, key2]
  · simp [pipelineCommit, key2]
  · simp [pipelineCommit, key2]
  · intro rates2
    exact commitTx_txOpened db _ rates2 (n + 1)

/-- C4 witness: the fixture database already contains a snapshot carrying the
hash of `rates5`. -/
theorem spec2_c4_witness :
    (lifecycleCommitting db4 true true "aws" "us-east-1" "default" rates5
      (calculateHash rates5) [] 10 5).res = .ok 1 ∧
    (pipelineCommit db4 "aws" "us-east-1" "default" rates5
      (calculateHash rates5) [] 10 5).txOpened = false :=
  ⟨((spec2_c4 db4 "aws" "us-east-1" "default" (calculateHash rates5) rates5 10 5 snap4
      (by decide)).1),
   ((spec2_c4 db4 "aws" "us-east-1" "default" (calculateHash rates5) rates5 10 5 snap4
      (by decide)).2.2.2.2.2.1)⟩

/-- C8 (amended): `Lifecycle.Execute` refuses to run, before any fetch,
backup write or database access, exactly when environment is production and
either mock pricing is allowed or the fetcher provides the `IsRealAPI`
capability and answers false; a production fetcher without the capability is
not rejected (see the counterexample). -/
theorem spec2_c8 (env : Env) (cfg : LifecycleConfig) (db : DB) (time nid : Nat)
    (hprod : cfg.environment = "production")
    (hbad : cfg.allowMockPricing = true ∨ env.isRealAPI = some false) :
    (lifecycleExecute env cfg db time nid).result.success = false ∧
    (lifecycleExecute env cfg db time nid).db = db ∧
    (lifecycleExecute env cfg db time nid).trace = [] := by
  have hg : ∃ e, enforceProductionGuards cfg env.isRealAPI = some e := by
    rcases hbad with hm | hr
    · exact ⟨"FATAL: mock pricing forbidden in production environment",
        by simp [enforceProductionGuards, hprod, hm]⟩
    · by_cases hm : cfg.allowMockPricing = true
      · exact ⟨"FATAL: mock pricing forbidden in production environment",
          by simp [enforceProductionGuards, hprod, hm]⟩
      · exact ⟨"FATAL: fetcher is not a real API implementation",
          by simp [enforceProductionGuards, hprod, hm, hr]⟩
  obtain ⟨e, hge⟩ := hg
  have hpre : lifecyclePre env cfg db time = .error ⟨e, [], none, 0, 0⟩ := by
    simp [lifecyclePre, hge]
  simp [lifecycleExecute, hpre]

/-- C8 witness: mock pricing in production is refused with an untouched
database and an empty effect trace. -/
theorem spec2_c8_witness :
    (lifecycleExecute envOk cfgMock db1 0 10).result.success = false ∧
    (lifecycleExecute envOk cfgMock db1 0 10).db = db1 ∧
    (lifecycleExecute envOk cfgMock db1 0 10).trace = [] :=
  spec2_c8 envOk cfgMock db1 0 10 (by decide) (.inl (by decide))

/-- Helper: the pre-commit phases never emit a transaction event — every
failure trace of `lifecyclePre` is free of `beginTx`. -/
theorem lifecyclePre_err_beginTx {env : Env} {cfg : LifecycleConfig} {db : DB}
    {time : Nat} {f : PreFail} (h : lifecyclePre env cfg db time = .error f) :
    Ev.beginTx ∉ f.trace := by
  revert h
  simp only [lifecyclePre]
  repeat' split
  all_goals intro h
  all_goals first
    | exact (Except.noConfusion h)
    | (injection h with h2; subst h2; simp)

/-- Helper: when the pre-commit phases succeed, the pre trace is exactly
fetch, backup write, backup read, verification. -/
theorem lifecyclePre_ok_trace {env : Env} {cfg : LifecycleConfig} {db : DB}
    {time : Nat} {pre : PreOk} (h : lifecyclePre env cfg db time = .ok pre) :
    pre.trace = [Ev.fetch, Ev.writeBackup, Ev.readBackup, Ev.backupVerified] := by
  revert h
  simp only [lifecyclePre]
  repeat' split
  all_goals intro h
  all_goals first
    | exact (Except.noConfusion h)
    | (injection h with h2; subst h2; rfl)

/-- C5 (amended): in the strict lifecycle, a transaction is opened — and the
database can change — only in runs whose trace already contains the
successful backup read-back-and-verify event: the backup file is written,
re-read (`ReadBackup` runs the non-empty-field, count and recomputed-hash
checks) and compared against the expected content hash before any database
write; a verification failure aborts the run with no transaction event.  The
streaming variant does not have this property (see the counterexample). -/
theorem spec2_c5 (env : Env) (cfg : LifecycleConfig) (db : DB) (time nid : Nat)
    (h : Ev.beginTx ∈ (lifecycleExecute env cfg db time nid).trace ∨
      (lifecycleExecute env cfg db time nid).db ≠ db) :
    Ev.backupVerified ∈ (lifecycleExecute env cfg db time nid).trace := by
  rcases heq : lifecyclePre env cfg db time with f | pre
  · exfalso
    rcases h with hb | hd
    · rw [lifecycleExecute] at hb
      simp only [heq] at hb
      exact lifecyclePre_err_beginTx heq hb
    · rw [lifecycleExecute] at hd
      simp only [heq] at hd
      exact hd rfl
  · have ht := lifecyclePre_ok_trace heq
    rw [lifecycleExecute]
    simp only [heq]
    split
    · simp [ht]
    · split
      · simp [ht]
      · simp [ht]

/-- C5 witness: a healthy full lifecycle run commits (its trace contains the
transaction events) and, by the theorem, its trace contains the verification
event. -/
theorem spec2_c5_witness :
    (Ev.beginTx ∈ (lifecycleExecute envOk cfgA db0 0 10).trace ∨
      (lifecycleExecute envOk cfgA db0 0 10).db ≠ db0) ∧
    Ev.backupVerified ∈ (lifecycleExecute envOk cfgA db0 0 10).trace :=
  ⟨.inl (by decide), spec2_c5 envOk cfgA db0 0 10 (.inl (by decide))⟩

/-- C7 (amended): the strict lifecycle enforces the coverage floor — when a
previous active snapshot with `N > 0` rates exists and the new rate count is
below `minCoverage` percent of `N`, validation fails, the run reports
failure, and the database (hence the previously active snapshot) is left
untouched.  A run normalizing to zero rates also fails.  The streaming
variant validates against a previous count of `0` and does not enforce the
floor (see the counterexample). -/
theorem spec2_c7 (env : Env) (cfg : LifecycleConfig) (db : DB) (time nid : Nat)
    (s : SnapshotRow) (N : Nat) (raws : List RawPrice)
    (rates : List NormalizedRate)
    (hsched : env.sched = [])
    (hfetch : env.fetchResult = .ok raws)
    (hnorm : env.normalizeFn raws = .ok rates)
    (hprev : db.getActiveSnapshot cfg.provider cfg.region cfg.palias = some s)
    (hcount : db.countRates s.id = N) (hN : 0 < N)
    (hcov : (rates.length : ℚ) / (N : ℚ) * 100 < cfg.minCoverage) :
    (lifecycleExecute env cfg db time nid).result.success = false ∧
    (lifecycleExecute env cfg db time nid).db = db := by
  have hfail : ∀ pre, lifecyclePre env cfg db time = .ok pre → False := by
    intro pre hok
    revert hok
    simp only [lifecyclePre]
    rcases hg : enforceProductionGuards cfg env.isRealAPI with _ | e
    case some => intro hok; exact Except.noConfusion hok
    case none =>
    by_cases hr0 : raws.length = 0
    · simp [hfetch, hr0]
    · by_cases hn0 : rates.length = 0
      · simp [hfetch, hr0, hnorm, hn0]
      · have hva : validateAll
            { newIngestionValidator with minCoveragePercent := cfg.minCoverage }
            rates N =
            some (match validatePricesPositive rates with
              | some e => e
              | none =>
                match validateDimensionsComplete
                    { newIngestionValidator with minCoveragePercent := cfg.minCoverage }
                    rates with
                | some e => e
                | none => "coverage decreased") := by
          rcases hp : validatePricesPositive rates with _ | ep
          · rcases hd : validateDimensionsComplete
                { newIngestionValidator with minCoveragePercent := cfg.minCoverage }
                rates with _ | ed
            · simp only [validateAll, hp, hd]
              rw [if_pos hN]
              unfold validateCoverageNotDecreased
              rw [if_neg hn0, if_pos hcov]
            · simp [validateAll, hp, hd]
          · simp [validateAll, hp]
        simp [hfetch, hr0, hnorm, hn0, hsched, oPop, hprev, hcount, hva]
  rcases heq : lifecyclePre env cfg db time with f | pre
  · rw [lifecycleExecute]
    simp [heq]
  · exact absurd heq (fun hh => hfail pre hh)

/-- C7 witness: with a previous active snapshot owning 3 rates, a lifecycle
ingest that normalizes to a single rate (33% < 95%) fails and leaves the
previous snapshot active. -/
theorem spec2_c7_witness :
    (lifecycleExecute envOk cfgA db7 0 10).result.success = false ∧
    (lifecycleExecute envOk cfgA db7 0 10).db = db7 :=
  spec2_c7 envOk cfgA db7 0 10 snapPrev 3 [raw0] rates5 rfl rfl rfl
    (by decide) (by decide) (by decide) (by norm_num [rates5, cfgA])

/-- Rescaling to a smaller (or equal) exponent is exact. -/
theorem Decimal.toRat_rescale (d : Decimal) (e : Int) (h : e ≤ d.exp) :
    (d.rescale e).toRat = d.toRat := by
  unfold Decimal.rescale
  split
  · rfl
  · rename_i hne
    rw [if_neg (by omega : ¬e > d.exp)]
    unfold Decimal.toRat
    push_cast
    have hk : (((e - d.exp).natAbs : Int)) = d.exp - e := by omega
    rw [mul_assoc, ← zpow_natCast (10 : ℚ) (e - d.exp).natAbs,
      ← zpow_add₀ (by norm_num : (10 : ℚ) ≠ 0), hk]
    ring_nf

/-- Rescaling sets the exponent. -/
theorem Decimal.rescale_exp (d : Decimal) (e : Int) : (d.rescale e).exp = e := by
  unfold Decimal.rescale
  split
  · assumption
  · split <;> rfl

/-- `RescalePair` equalizes the exponents and preserves both values. -/
theorem Decimal.rescalePair_spec (a b : Decimal) :
    (Decimal.rescalePair a b).1.exp = (Decimal.rescalePair a b).2.exp ∧
    (Decimal.rescalePair a b).1.toRat = a.toRat ∧
    (Decimal.rescalePair a b).2.toRat = b.toRat := by
  unfold Decimal.rescalePair
  split
  · rename_i h
    exact ⟨(Decimal.rescale_exp b a.exp).symm, rfl,
      Decimal.toRat_rescale b a.exp (le_of_lt h)⟩
  · split
    · rename_i h1 h2
      exact ⟨Decimal.rescale_exp a b.exp, Decimal.toRat_rescale a b.exp (le_of_lt h2), rfl⟩
    · rename_i h1 h2
      exact ⟨by show a.exp = b.exp; omega, rfl, rfl⟩

/-- `Add` is exact. -/
theorem Decimal.toRat_add (a b : Decimal) : (a.add b).toRat = a.toRat + b.toRat := by
  obtain ⟨hexp, ha, hb⟩ := Decimal.rescalePair_spec a b
  rw [← ha, ← hb]
  unfold Decimal.add Decimal.toRat
  push_cast
  rw [hexp]
  ring

/-- `Sub` is exact. -/
theorem Decimal.toRat_sub (a b : Decimal) : (a.sub b).toRat = a.toRat - b.toRat := by
  obtain ⟨hexp, ha, hb⟩ := Decimal.rescalePair_spec a b
  rw [← ha, ← hb]
  unfold Decimal.sub Decimal.toRat
  push_cast
  rw [hexp]
  ring

/-- `Mul` is exact. -/
theorem Decimal.toRat_mul (a b : Decimal) : (a.mul b).toRat = a.toRat * b.toRat := by
  unfold Decimal.mul Decimal.toRat
  push_cast
  rw [zpow_add₀ (by norm_num : (10 : ℚ) ≠ 0)]
  ring

/-- At equal exponents, the rational order is the coefficient order. -/
theorem Decimal.toRat_lt_iff_of_exp {a b : Decimal} (h : a.exp = b.exp) :
    a.toRat < b.toRat ↔ a.value < b.value := by
  unfold Decimal.toRat
  rw [h, mul_lt_mul_right (zpow_pos (by norm_num : (0 : ℚ) < 10) b.exp)]
  exact Int.cast_lt

/-- `cmpInt x y = 1` means `y < x`. -/
theorem Decimal.cmpInt_eq_one_iff {x y : Int} : Decimal.cmpInt x y = 1 ↔ y < x := by
  unfold Decimal.cmpInt
  split
  · constructor <;> (intro hh; omega)
  · split
    · constructor <;> (intro hh; omega)
    · constructor <;> (intro hh; omega)

/-- `cmpInt x y ≤ 0` means `x ≤ y`. -/
theorem Decimal.cmpInt_le_zero_iff {x y : Int} : Decimal.cmpInt x y ≤ 0 ↔ x ≤ y := by
  unfold Decimal.cmpInt
  split
  · constructor <;> (intro hh; omega)
  · split
    · constructor <;> (intro hh; omega)
    · constructor <;> (intro hh; omega)

/-- `GreaterThan` decides the strict rational order. -/
theorem Decimal.greaterThan_iff (a b : Decimal) :
    a.greaterThan b = true ↔ b.toRat < a.toRat := by
  unfold Decimal.greaterThan
  rw [decide_eq_true_iff]
  unfold Decimal.cmp
  split
  · rename_i h
    rw [Decimal.cmpInt_eq_one_iff]
    exact (Decimal.toRat_lt_iff_of_exp (a := b) (b := a) h.symm).symm
  · obtain ⟨hexp, ha, hb⟩ := Decimal.rescalePair_spec a b
    rw [Decimal.cmpInt_eq_one_iff, ← ha, ← hb]
    exact (Decimal.toRat_lt_iff_of_exp (a := (Decimal.rescalePair a b).2)
      (b := (Decimal.rescalePair a b).1) hexp.symm).symm

/-- `LessThanOrEqual` decides the rational order. -/
theorem Decimal.lessThanOrEqual_iff (a b : Decimal) :
    a.lessThanOrEqual b = true ↔ a.toRat ≤ b.toRat := by
  unfold Decimal.lessThanOrEqual
  rw [decide_eq_true_iff]
  unfold Decimal.cmp
  split
  · rename_i h
    rw [Decimal.cmpInt_le_zero_iff]
    constructor
    · intro hv
      exact not_lt.mp fun hc =>
        absurd ((Decimal.toRat_lt_iff_of_exp (a := b) (b := a) h.symm).mp hc) (by omega)
    · intro hv
      exact not_lt.mp fun hc =>
        absurd ((Decimal.toRat_lt_iff_of_exp (a := b) (b := a) h.symm).mpr hc) (not_lt.mpr hv)
  · obtain ⟨hexp, ha, hb⟩ := Decimal.rescalePair_spec a b
    rw [Decimal.cmpInt_le_zero_iff, ← ha, ← hb]
    constructor
    · intro hv
      exact not_lt.mp fun hc =>
        absurd ((Decimal.toRat_lt_iff_of_exp (a := (Decimal.rescalePair a b).2)
          (b := (Decimal.rescalePair a b).1) hexp.symm).mp hc) (by omega)
    · intro hv
      exact not_lt.mp fun hc =>
        absurd ((Decimal.toRat_lt_iff_of_exp (a := (Decimal.rescalePair a b).2)
          (b := (Decimal.rescalePair a b).1) hexp.symm).mpr hc) (not_lt.mpr hv)

/-- The loop of `CalculateTieredCost` computes, over exact rationals, the
specification's greedy allocation: the accumulated cost plus Σ allocation ×
price over the consumed tiers, and the running minimum of the consumed
confidences. -/
theorem calculateTieredCostLoop_spec (ts : List TieredRate) :
    ∀ (r tc : Decimal) (mc : ℚ),
    (calculateTieredCostLoop r tc mc ts).1.toRat =
      tc.toRat + specCost r.toRat (ts.map TieredRate.toQ) ∧
    (calculateTieredCostLoop r tc mc ts).2 =
      ((specConsumed r.toRat (ts.map TieredRate.toQ)).map fun p => p.1.confidence).foldl
        (fun m c => if c < m then c else m) mc := by
  induction ts with
  | nil =>
    intro r tc mc
    simp [calculateTieredCostLoop, specCost, specConsumed]
  | cons t rest ih =>
    intro r tc mc
    rw [calculateTieredCostLoop]
    by_cases hle : r.lessThanOrEqual Decimal.zero = true
    · rw [if_pos hle]
      have hr0 : r.toRat ≤ 0 := by
        have hv := (Decimal.lessThanOrEqual_iff r Decimal.zero).mp hle
        simpa [Decimal.toRat, Decimal.zero] using hv
      simp [specConsumed, specCost, hr0]
    · rw [if_neg hle]
      have hr0 : ¬r.toRat ≤ 0 := by
        intro hc
        exact hle ((Decimal.lessThanOrEqual_iff r Decimal.zero).mpr
          (by simpa [Decimal.toRat, Decimal.zero] using hc))
      cases hmax : t.max with
      | none =>
        dsimp only
        obtain ⟨ihc, ihm⟩ := ih (r.sub r) (tc.add (r.mul t.price))
          (if t.confidence < mc then t.confidence else mc)
        have hrr : (r.sub r).toRat = 0 := by rw [Decimal.toRat_sub]; ring
        have hnil : specConsumed (0 : ℚ) (rest.map TieredRate.toQ) = [] := by
          cases rest with
          | nil => simp [specConsumed]
          | cons t2 r2 => simp [specConsumed]
        have hcons : specConsumed r.toRat ((t :: rest).map TieredRate.toQ) =
            [(t.toQ, r.toRat)] := by
          simp [specConsumed, hr0, TieredRate.toQ, hmax]
        constructor
        · rw [ihc, hrr]
          simp only [specCost]
          rw [hcons, hnil]
          simp only [List.map_cons, List.map_nil, List.sum_cons, List.sum_nil,
            Decimal.toRat_add, Decimal.toRat_mul]
          simp only [TieredRate.toQ]
          ring
        · rw [ihm, hrr, hnil, hcons]
          simp [TieredRate.toQ]
      | some mx =>
        have hsz : (mx.sub t.min).toRat = mx.toRat - t.min.toRat := Decimal.toRat_sub mx t.min
        have hcons : specConsumed r.toRat ((t :: rest).map TieredRate.toQ) =
            (t.toQ, min r.toRat (mx.toRat - t.min.toRat)) ::
              specConsumed (r.toRat - min r.toRat (mx.toRat - t.min.toRat))
                (rest.map TieredRate.toQ) := by
          simp [specConsumed, hr0, TieredRate.toQ, hmax]
        dsimp only
        by_cases hgt : r.greaterThan (mx.sub t.min) = true
        · rw [if_pos hgt]
          have hlt : mx.toRat - t.min.toRat < r.toRat := by
            have := (Decimal.greaterThan_iff r (mx.sub t.min)).mp hgt
            rwa [hsz] at this
          have hminv : min r.toRat (mx.toRat - t.min.toRat) = mx.toRat - t.min.toRat :=
            min_eq_right (le_of_lt hlt)
          obtain ⟨ihc, ihm⟩ := ih (r.sub (mx.sub t.min)) (tc.add ((mx.sub t.min).mul t.price))
            (if t.confidence < mc then t.confidence else mc)
          constructor
          · rw [ihc]
            simp only [specCost]
            rw [hcons]
            simp only [List.map_cons, List.sum_cons, Decimal.toRat_add,
              Decimal.toRat_mul, Decimal.toRat_sub, hminv]
            simp only [TieredRate.toQ]
            ring
          · rw [ihm, hcons]
            simp only [List.map_cons, List.foldl_cons, Decimal.toRat_sub, hminv,
              TieredRate.toQ]
        · rw [if_neg hgt]
          have hge : r.toRat ≤ mx.toRat - t.min.toRat := by
            have hv : ¬(mx.sub t.min).toRat < r.toRat := fun hc =>
              hgt ((Decimal.greaterThan_iff r (mx.sub t.min)).mpr hc)
            rw [hsz] at hv
            exact le_of_not_lt hv
          have hminv : min r.toRat (mx.toRat - t.min.toRat) = r.toRat := min_eq_left hge
          obtain ⟨ihc, ihm⟩ := ih (r.sub r) (tc.add (r.mul t.price))
            (if t.confidence < mc then t.confidence else mc)
          constructor
          · rw [ihc]
            simp only [specCost]
            rw [hcons]
            simp only [List.map_cons, List.sum_cons, Decimal.toRat_add,
              Decimal.toRat_mul, Decimal.toRat_sub, hminv]
            simp only [TieredRate.toQ]
            ring
          · rw [ihm, hcons]
            simp only [List.map_cons, List.foldl_cons, Decimal.toRat_sub, hminv,
              TieredRate.toQ]

/-- The loop's running-minimum update is `min`. -/
theorem minStep_eq_min (m c : ℚ) : (if c < m then c else m) = min m c := by
  split
  · exact (min_eq_right (le_of_lt (by assumption))).symm
  · exact (min_eq_left (le_of_not_lt (by assumption))).symm

/-- Every consumed tier comes from the input tier list. -/
theorem specConsumed_mem {u : ℚ} {ts : List TierQ} {p : TierQ × ℚ}
    (h : p ∈ specConsumed u ts) : p.1 ∈ ts := by
  induction ts generalizing u with
  | nil => simp [specConsumed] at h
  | cons t rest ih =>
    rw [specConsumed] at h
    by_cases hu : u ≤ 0
    · rw [if_pos hu] at h; simp at h
    · rw [if_neg hu] at h
      cases hmax : t.max with
      | none =>
        rw [hmax] at h
        simp at h
        simp [h]
      | some mx =>
        rw [hmax] at h
        simp only [List.mem_cons] at h
        rcases h with h | h
        · simp [h]
        · exact List.mem_cons_of_mem t (ih h)

/-- C9: `CalculateTieredCost` consumes the tiers in order greedily — over
exact rationals its cost is Σ min(remaining, max − min) × price with an
unbounded tier absorbing all remaining usage, and (when every stored
confidence is at most 1, as the schema's `confidence ∈ (0,1]` check
guarantees) the returned confidence is the minimum across the consumed
tiers; in particular for tiers [(0,10,$0.10),(10,∞,$0.05)] and usage 25 it
returns exactly 1.75 with confidence 1. -/
theorem spec2_c9 (usage : Decimal) (tiers : List TieredRate)
    (hconf : ∀ t ∈ tiers, t.confidence ≤ 1) :
    (CalculateTieredCost usage tiers).1.toRat =
      specCost usage.toRat (tiers.map TieredRate.toQ) ∧
    (tiers ≠ [] → (CalculateTieredCost usage tiers).2 =
      specMinConf usage.toRat (tiers.map TieredRate.toQ)) ∧
    CalculateTieredCost ⟨25, 0⟩ tiers9 = (⟨175, -2⟩, 1) ∧
    (⟨175, -2⟩ : Decimal).toRat = 7 / 4 := by
  refine ⟨?_, ?_, by decide, by norm_num [Decimal.toRat]⟩
  · rw [CalculateTieredCost]
    split
    · rename_i he
      rw [List.isEmpty_iff] at he
      subst he
      simp [specCost, specConsumed, Decimal.toRat, Decimal.zero]
    · have h := (calculateTieredCostLoop_spec tiers usage Decimal.zero 1).1
      rw [h]
      simp [Decimal.toRat, Decimal.zero]
  · intro hne
    rw [CalculateTieredCost]
    rw [if_neg (by simpa [List.isEmpty_iff] using hne)]
    have h := (calculateTieredCostLoop_spec tiers usage Decimal.zero 1).2
    rw [h]
    have hstep : (fun (m c : ℚ) => if c < m then c else m) = min := by
      funext m c
      exact minStep_eq_min m c
    rw [hstep]
    rcases hcons : (specConsumed usage.toRat (tiers.map TieredRate.toQ)).map
        (fun p => p.1.confidence) with _ | ⟨c, cs⟩
    · simp [specMinConf, hcons]
    · have hc1 : c ≤ 1 := by
        have hcmem : c ∈ (specConsumed usage.toRat (tiers.map TieredRate.toQ)).map
            (fun p => p.1.confidence) := by rw [hcons]; exact List.mem_cons_self c cs
        rcases List.mem_map.mp hcmem with ⟨p, hp, hpc⟩
        rcases List.mem_map.mp (specConsumed_mem hp) with ⟨t0, ht0, htq⟩
        rw [← hpc, ← htq]
        exact hconf t0 ht0
      rw [specMinConf, hcons]
      simp only [List.foldl_cons]
      rw [min_eq_right hc1]

/-- C9 witness: the specification's example, with both tier confidences 1. -/
theorem spec2_c9_witness :
    (CalculateTieredCost ⟨25, 0⟩ tiers9).1.toRat =
      specCost (Decimal.toRat ⟨25, 0⟩) (tiers9.map TieredRate.toQ) ∧
    (CalculateTieredCost ⟨25, 0⟩ tiers9).2 =
      specMinConf (Decimal.toRat ⟨25, 0⟩) (tiers9.map TieredRate.toQ) :=
  ⟨(spec2_c9 ⟨25, 0⟩ tiers9 (by decide)).1,
   (spec2_c9 ⟨25, 0⟩ tiers9 (by decide)).2.1 (by decide)⟩

/-- C10: `Lifecycle.Execute` always returns a `nil` Go error — the failure
path (`Lifecycle.fail`) and the success path (`Lifecycle.success`) both pair
the (always non-nil) `LifecycleResult` with `nil` — so a caller can detect
failure only through `Success = false`, equivalently through the recorded
phase being `failed`. -/
theorem spec2_c10 (env : Env) (cfg : LifecycleConfig) (db : DB) (time nid : Nat) :
    (lifecycleExecute env cfg db time nid).err = none ∧
    ((lifecycleExecute env cfg db time nid).result.success = false ↔
      (lifecycleExecute env cfg db time nid).result.phase = .failed) := by
  rcases heq : lifecyclePre env cfg db time with f | pre
  · rw [lifecycleExecute]
    simp [heq]
  · rw [lifecycleExecute]
    simp only [heq]
    split
    · simp
    · split <;> simp
